import Mathlib

/-!
Verification development for the `python-gmail` repository's content-extraction
pipeline (`src/module/news_utils.py` and `src/module/blog_utils.py`).

Python strings are modelled as `List Char`; Python `datetime` values as a
record of numeric fields plus an optional UTC offset (aware vs naive);
fallible collaborator calls (network fetches) as `Except Unit` values supplied
as parameters.  Regex character classes are modelled over ASCII plus Hangul
syllables, matching the scripts actually used by the program.
-/

set_option maxHeartbeats 1000000
set_option maxRecDepth 100000

namespace PG

/-- Strings are modelled as lists of characters. -/
abbrev Str := List Char

/-- Python's whitespace class `\s` (ASCII part), also used by `str.strip()`
and no-argument `str.split()`. -/
def isPySpace (c : Char) : Bool :=
  c = ' ' || c = '\t' || c = '\n' || c = '\r' || c = '\x0b' || c = '\x0c'

/-- Hangul syllable block `가-힣` (U+AC00 .. U+D7A3). -/
def isHangulSyl (c : Char) : Bool :=
  0xAC00 ≤ c.toNat && c.toNat ≤ 0xD7A3

/-- Model of the regex class `\w`: ASCII word characters plus Hangul
syllables (the scripts occurring in this program's data). -/
def isWordCh (c : Char) : Bool :=
  c.isAlphanum || c = '_' || isHangulSyl c

/-- The ASCII case table: uppercase letters with their lowercase forms. -/
def asciiCasePairs : List (Char × Char) :=
  [('A', 'a'), ('B', 'b'), ('C', 'c'), ('D', 'd'), ('E', 'e'), ('F', 'f'),
   ('G', 'g'), ('H', 'h'), ('I', 'i'), ('J', 'j'), ('K', 'k'), ('L', 'l'),
   ('M', 'm'), ('N', 'n'), ('O', 'o'), ('P', 'p'), ('Q', 'q'), ('R', 'r'),
   ('S', 's'), ('T', 't'), ('U', 'u'), ('V', 'v'), ('W', 'w'), ('X', 'x'),
   ('Y', 'y'), ('Z', 'z')]

/-- ASCII lowercasing of one character (extensionally `Char.toLower`:
`A`–`Z` map to `a`–`z`, everything else is fixed). -/
def pyLowerChar (c : Char) : Char :=
  match asciiCasePairs.find? (fun p => p.1 = c) with
  | some p => p.2
  | none => c

/-- Python `str.lower()` (ASCII case mapping). -/
def pyLower (l : Str) : Str := l.map pyLowerChar

/-- Python substring test `pat in hay`. -/
def strHas (hay pat : Str) : Bool :=
  (List.range (hay.length + 1)).any (fun i => pat.isPrefixOf (hay.drop i))

/-- Python `str.strip()`: drop leading and trailing whitespace. -/
def pyStrip (l : Str) : Str :=
  ((l.dropWhile isPySpace).reverse.dropWhile isPySpace).reverse

/-- Worker for `collapseWs`; the flag records whether the previous input
character was whitespace (in which case further whitespace is dropped). -/
def collapseWsAux : Bool → Str → Str
  | _, [] => []
  | prevWs, c :: cs =>
    if isPySpace c then
      if prevWs then collapseWsAux true cs
      else ' ' :: collapseWsAux true cs
    else c :: collapseWsAux false cs

/-- The regex substitution `re.sub(r"\s+", " ", ·)`: every maximal run of
whitespace becomes a single space. -/
def collapseWs (l : Str) : Str := collapseWsAux false l

/-- Worker for `splitWs`; `cur` is the current token accumulated in reverse. -/
def splitWsAux (cur : Str) : Str → List Str
  | [] => if cur = [] then [] else [cur.reverse]
  | c :: cs =>
    if isPySpace c then
      if cur = [] then splitWsAux [] cs
      else cur.reverse :: splitWsAux [] cs
    else splitWsAux (c :: cur) cs

/-- Python no-argument `str.split()`: whitespace-separated tokens, empty
tokens dropped. -/
def splitWs (l : Str) : List Str := splitWsAux [] l

/-- `_normalize_title` from `src/module/news_utils.py` (the function in
`src/module/blog_utils.py` is textually identical): remove every character
that is not in `\w`, `\s` or `가-힣`, collapse whitespace runs to single
spaces, strip, and lowercase. -/
def normalize_title (title : Str) : Str :=
  pyLower (pyStrip (collapseWs (title.filter (fun c => isWordCh c || isPySpace c))))

/-- `_calculate_similarity` from `src/module/news_utils.py` (identical in
`blog_utils.py`): Jaccard similarity of the whitespace-token sets, `1.0`
when both sets are empty. Exact rational arithmetic models the float
division. -/
def calculate_similarity (str1 str2 : Str) : ℚ :=
  let words1 := (splitWs str1).toFinset
  let words2 := (splitWs str2).toFinset
  if words1 = ∅ ∧ words2 = ∅ then 1
  else if words1 ∪ words2 = ∅ then 0
  else mkRat ((words1 ∩ words2).card) ((words1 ∪ words2).card)

/-- `_is_similar_title`: true iff some already-seen (normalized) title has
Jaccard similarity above `0.5` with the candidate's normalized title.  The
Python `set` of seen titles is modelled as a list; `any` does not depend on
iteration order. -/
def is_similar_title (title : Str) (seen_titles : List Str) : Bool :=
  let normalized := normalize_title title
  seen_titles.any (fun s => decide (mkRat 1 2 < calculate_similarity normalized s))

/-- The promotional keyword list of `_is_ad_or_promotional` (identical in
both modules). -/
def ad_keywords : List Str :=
  [("광고"), ("홍보"), ("협찬"), ("제휴"), ("할인"), ("이벤트"), ("프로모션"), ("마케팅"),
   ("브랜드"), ("론칭"), ("오픈"), ("신제품"), ("출시"), ("특가"), ("세일"), ("쿠폰"),
   ("포인트"), ("혜택"), ("무료체험"), ("[광고]"), ("(광고)"), ("[pr]"), ("(pr)"),
   ("[홍보]"), ("(홍보)")].map String.data

/-- `_is_ad_or_promotional` from `src/module/news_utils.py` (identical in
`blog_utils.py`): lowercase `title + " " + description` and test whether any
keyword occurs as a substring. -/
def is_ad_or_promotional (title description : Str) : Bool :=
  let content := pyLower (title ++ [' '] ++ description)
  ad_keywords.any (fun kw => strHas content kw)

/-! ### Python `datetime` model and `_parse_pub_date` -/

/-- Model of a Python `datetime` value: calendar/clock fields plus an
optional UTC offset in seconds (`none` = a naive datetime, `some` = aware,
as produced by the `%z` directive). -/
structure PyDateTime where
  year : Nat
  month : Nat
  day : Nat
  hour : Nat
  minute : Nat
  second : Nat
  tzoff : Option Int
deriving DecidableEq, Repr

/-- Lexicographic strict comparison of equal-length number lists (first
differing position decides). -/
def natListLt : List Nat → List Nat → Bool
  | a :: as, b :: bs => if a ≠ b then a < b else natListLt as bs
  | _, _ => false

def dtFields (a : PyDateTime) : List Nat :=
  [a.year, a.month, a.day, a.hour, a.minute, a.second]

/-- Field-lexicographic comparison, the order Python uses on two naive
`datetime` values. -/
def dtLtB (a b : PyDateTime) : Bool := natListLt (dtFields a) (dtFields b)

def dtLeB (a b : PyDateTime) : Bool := !dtLtB b a

/-- Days since 0000-03-01 in the proleptic Gregorian calendar (valid for
`year ≥ 1`), used to compare offset-aware datetimes as instants. -/
def daysFromCivil (y m d : Nat) : Nat :=
  let yy := y - (if m ≤ 2 then 1 else 0)
  let era := yy / 400
  let yoe := yy % 400
  let mp := (m + 9) % 12
  let doy := (153 * mp + 2) / 5 + d - 1
  let doe := yoe * 365 + yoe / 4 - yoe / 100 + doy
  era * 146097 + doe

/-- Naive wall-clock seconds of a datetime (offset ignored). -/
def dtSeconds (a : PyDateTime) : Nat :=
  daysFromCivil a.year a.month a.day * 86400 + a.hour * 3600 + a.minute * 60 + a.second

/-- Python `a < b` on datetimes: naive/naive compares fields, aware/aware
compares UTC instants, mixing naive and aware raises `TypeError`
(modelled as `.error`). -/
def pyDtLt (a b : PyDateTime) : Except Unit Bool :=
  match a.tzoff, b.tzoff with
  | none, none => .ok (dtLtB a b)
  | some x, some y => .ok (decide ((dtSeconds a : Int) - x < (dtSeconds b : Int) - y))
  | _, _ => .error ()

/-- `datetime.min`, the sort key substituted for a missing publication
date (`x.get("pub_date_raw") or datetime.min`). -/
def pyDatetimeMin : PyDateTime := ⟨1, 1, 1, 0, 0, 0, none⟩

def daysInMonth (y m : Nat) : Nat :=
  if m = 2 then (if y % 4 = 0 ∧ (y % 100 ≠ 0 ∨ y % 400 = 0) then 29 else 28)
  else if m = 4 ∨ m = 6 ∨ m = 9 ∨ m = 11 then 30 else 31

/-- `datetime(...)` construction including the range validation that makes
CPython raise `ValueError` (caught by the caller) on impossible dates,
out-of-range times, or out-of-range UTC offsets. -/
def mkPyDateTime (y mo d h mi s : Nat) (tz : Option Int) : Option PyDateTime :=
  if (1 ≤ y && y ≤ 9999 && 1 ≤ mo && mo ≤ 12 && 1 ≤ d && d ≤ daysInMonth y mo
      && h ≤ 23 && mi ≤ 59 && s ≤ 59
      && (match tz with | some o => o.natAbs < 24 * 3600 | none => true : Bool))
  then some ⟨y, mo, d, h, mi, s, tz⟩ else none

/-! Character-level models of the `strptime` regexes.  Each component
parser returns its alternatives in the order the generated regex tries
them; sequencing with `pbind` gives the regex's backtracking order, and a
format matches iff some alternative consumes the whole string (CPython
rejects a partial match via its "unconverted data remains" check). -/

def pbind (xs : List (α × Str)) (f : α → Str → List (β × Str)) : List (β × Str) :=
  xs.flatMap (fun p => f p.1 p.2)

def dval (c : Char) : Nat := c.toNat - 48

/-- Exactly four digits (the `%Y` regex `\d\d\d\d`). -/
def pYear4 : Str → List (Nat × Str)
  | a :: b :: c :: d :: rest =>
    if a.isDigit && b.isDigit && c.isDigit && d.isDigit then
      [(((dval a * 10 + dval b) * 10 + dval c) * 10 + dval d, rest)]
    else []
  | _ => []

/-- `%m`: `1[0-2]|0[1-9]|[1-9]`. -/
def pMonth2 : Str → List (Nat × Str)
  | a :: b :: rest =>
    (if a = '1' && ('0' ≤ b && b ≤ '2') then [(10 + dval b, rest)] else []) ++
    (if a = '0' && ('1' ≤ b && b ≤ '9') then [(dval b, rest)] else []) ++
    (if '1' ≤ a && a ≤ '9' then [(dval a, b :: rest)] else [])
  | [a] => if '1' ≤ a && a ≤ '9' then [(dval a, [])] else []
  | [] => []

/-- `%d`: `3[01]|[12]\d|0[1-9]|[1-9]`. -/
def pDay2 : Str → List (Nat × Str)
  | a :: b :: rest =>
    (if a = '3' && ('0' ≤ b && b ≤ '1') then [(30 + dval b, rest)] else []) ++
    (if ('1' ≤ a && a ≤ '2') && b.isDigit then [(dval a * 10 + dval b, rest)] else []) ++
    (if a = '0' && ('1' ≤ b && b ≤ '9') then [(dval b, rest)] else []) ++
    (if '1' ≤ a && a ≤ '9' then [(dval a, b :: rest)] else [])
  | [a] => if '1' ≤ a && a ≤ '9' then [(dval a, [])] else []
  | [] => []

/-- `%H`: `2[0-3]|[0-1]\d|\d`. -/
def pHour2 : Str → List (Nat × Str)
  | a :: b :: rest =>
    (if a = '2' && ('0' ≤ b && b ≤ '3') then [(20 + dval b, rest)] else []) ++
    (if ('0' ≤ a && a ≤ '1') && b.isDigit then [(dval a * 10 + dval b, rest)] else []) ++
    (if a.isDigit then [(dval a, b :: rest)] else [])
  | [a] => if a.isDigit then [(dval a, [])] else []
  | [] => []

/-- `%M`: `[0-5]\d|\d`. -/
def pMin2 : Str → List (Nat × Str)
  | a :: b :: rest =>
    (if ('0' ≤ a && a ≤ '5') && b.isDigit then [(dval a * 10 + dval b, rest)] else []) ++
    (if a.isDigit then [(dval a, b :: rest)] else [])
  | [a] => if a.isDigit then [(dval a, [])] else []
  | [] => []

/-- `%S`: `6[0-1]|[0-5]\d|\d` (the regex admits leap seconds; the later
`datetime` construction rejects them). -/
def pSec2 : Str → List (Nat × Str)
  | a :: b :: rest =>
    (if a = '6' && ('0' ≤ b && b ≤ '1') then [(60 + dval b, rest)] else []) ++
    (if ('0' ≤ a && a ≤ '5') && b.isDigit then [(dval a * 10 + dval b, rest)] else []) ++
    (if a.isDigit then [(dval a, b :: rest)] else [])
  | [a] => if a.isDigit then [(dval a, [])] else []
  | [] => []

/-- A literal character of the format string (matched case-insensitively,
as CPython compiles the whole pattern with `IGNORECASE`). -/
def pLit (c : Char) : Str → List (Unit × Str)
  | d :: rest => if d.toLower = c.toLower then [((), rest)] else []
  | [] => []

/-- Whitespace in the format string matches `\s+`; every following token
in the used formats starts with a non-whitespace character, so consuming
the maximal run is the unique viable alternative. -/
def pWs1 : Str → List (Unit × Str)
  | c :: cs => if isPySpace c then [((), (c :: cs).dropWhile isPySpace)] else []
  | [] => []

def weekdayNames : List Str :=
  [("mon"), ("tue"), ("wed"), ("thu"), ("fri"), ("sat"), ("sun")].map String.data

def monthNames : List (Str × Nat) :=
  [(("jan"), 1), (("feb"), 2), (("mar"), 3), (("apr"), 4), (("may"), 5), (("jun"), 6),
   (("jul"), 7), (("aug"), 8), (("sep"), 9), (("oct"), 10), (("nov"), 11), (("dec"), 12)].map
    (fun p => (p.1.data, p.2))

/-- `%a`: a three-letter weekday abbreviation, case-insensitive (value
unused by the pipeline's formats). -/
def pWeekday : Str → List (Unit × Str)
  | a :: b :: c :: rest =>
    if weekdayNames.any (fun w => w = pyLower [a, b, c]) then [((), rest)] else []
  | _ => []

/-- `%b`: a three-letter month abbreviation, case-insensitive. -/
def pMonthName : Str → List (Nat × Str)
  | a :: b :: c :: rest =>
    (monthNames.filterMap
      (fun p => if p.1 = pyLower [a, b, c] then some (p.2, rest) else none))
  | _ => []

/-- `%Z`: a timezone name; modelled as the always-known names `UTC`/`GMT`
(case-insensitive).  A `%Z` match leaves the datetime naive. -/
def pTzName : Str → List (Unit × Str)
  | a :: b :: c :: rest =>
    if pyLower [a, b, c] = ("utc").data ∨ pyLower [a, b, c] = ("gmt").data then
      [((), rest)]
    else []
  | _ => []

/-- Two digits with no range restriction (used inside `%z`). -/
def pDig2 : Str → List (Nat × Str)
  | a :: b :: rest =>
    if a.isDigit && b.isDigit then [(dval a * 10 + dval b, rest)] else []
  | _ => []

/-- `%z`: `[+-]\d\d:?\d\d(:?\d\d(\.\d{1,6})?)?|Z`, yielding a UTC offset in
seconds (fractions dropped, as `timezone` keeps whole seconds only after
`timedelta` normalization of microseconds; the formats using `%z` place it
last, so the greedy/optional structure is explored in regex order). -/
def pTzOffset : Str → List (Int × Str) := fun s =>
  match s with
  | 'Z' :: rest => [((0 : Int), rest)]
  | c :: rest =>
    if c = '+' ∨ c = '-' then
      let sign : Int := if c = '+' then 1 else -1
      pbind (pDig2 rest) fun hh s1 =>
        let afterColon : List (Nat × Str) := match s1 with
          | ':' :: s2 => pDig2 s2
          | _ => []
        pbind (afterColon ++ pDig2 s1) fun mm s2 =>
          -- optional seconds part, greedy alternatives first
          let withSec : List (Nat × Str) :=
            (match s2 with
              | ':' :: s3 => pDig2 s3
              | _ => []) ++ pDig2 s2
          (pbind withSec fun ss s3 =>
            let base := sign * ((hh : Int) * 3600 + mm * 60 + ss)
            (match s3 with
              | '.' :: s4 =>
                let frac := s4.takeWhile Char.isDigit
                if 1 ≤ frac.length ∧ frac.length ≤ 6 then
                  [(base, s4.drop frac.length)]
                else []
              | _ => []) ++ [(base, s3)]) ++
          [(sign * ((hh : Int) * 3600 + mm * 60), s2)]
    else []
  | [] => []

/-- Run a format: take the regex's first full-length match (if any), then
construct the datetime; an invalid calendar value raises `ValueError`,
which the source catches, failing just this format. -/
def runFormat (alts : List ((Nat × Nat × Nat × Nat × Nat × Nat × Option Int) × Str)) :
    Option PyDateTime :=
  match (alts.filter (fun p => p.2 = [])).head? with
  | some (⟨y, mo, d, h, mi, s, tz⟩, _) => mkPyDateTime y mo d h mi s tz
  | none => none

/-- Shared parse of `"%a, %d %b %Y %H:%M:%S "` (formats 1 and 2); yields
`(year, month, day, hour, minute, second)`. -/
def pRssPrefix (s : Str) : List ((Nat × Nat × Nat × Nat × Nat × Nat) × Str) :=
  pbind (pWeekday s) fun _ s1 =>
  pbind (pLit ',' s1) fun _ s2 =>
  pbind (pWs1 s2) fun _ s3 =>
  pbind (pDay2 s3) fun d s4 =>
  pbind (pWs1 s4) fun _ s5 =>
  pbind (pMonthName s5) fun mo s6 =>
  pbind (pWs1 s6) fun _ s7 =>
  pbind (pYear4 s7) fun y s8 =>
  pbind (pWs1 s8) fun _ s9 =>
  pbind (pHour2 s9) fun h s10 =>
  pbind (pLit ':' s10) fun _ s11 =>
  pbind (pMin2 s11) fun mi s12 =>
  pbind (pLit ':' s12) fun _ s13 =>
  pbind (pSec2 s13) fun sec s14 =>
  pbind (pWs1 s14) fun _ s15 =>
  [((y, mo, d, h, mi, sec), s15)]

/-- Format `"%a, %d %b %Y %H:%M:%S %Z"`. -/
def tryFmtRssName (s : Str) : Option PyDateTime :=
  runFormat <|
    pbind (pRssPrefix s) fun v s1 =>
    (pTzName s1).map (fun p =>
      ((v.1, v.2.1, v.2.2.1, v.2.2.2.1, v.2.2.2.2.1, v.2.2.2.2.2, none), p.2))

/-- Format `"%a, %d %b %Y %H:%M:%S %z"`. -/
def tryFmtRssOffset (s : Str) : Option PyDateTime :=
  runFormat <|
    pbind (pRssPrefix s) fun v s1 =>
    (pTzOffset s1).map (fun p =>
      ((v.1, v.2.1, v.2.2.1, v.2.2.2.1, v.2.2.2.2.1, v.2.2.2.2.2, some p.1), p.2))

/-- Format `"%Y-%m-%dT%H:%M:%S%z"` (ISO 8601 with offset). -/
def tryFmtIso (s : Str) : Option PyDateTime :=
  runFormat <|
    pbind (pYear4 s) fun y s1 =>
    pbind (pLit '-' s1) fun _ s2 =>
    pbind (pMonth2 s2) fun mo s3 =>
    pbind (pLit '-' s3) fun _ s4 =>
    pbind (pDay2 s4) fun d s5 =>
    pbind (pLit 'T' s5) fun _ s6 =>
    pbind (pHour2 s6) fun h s7 =>
    pbind (pLit ':' s7) fun _ s8 =>
    pbind (pMin2 s8) fun mi s9 =>
    pbind (pLit ':' s9) fun _ s10 =>
    pbind (pSec2 s10) fun sec s11 =>
    (pTzOffset s11).map (fun p => ((y, mo, d, h, mi, sec, some p.1), p.2))

/-- Format `"%Y-%m-%d %H:%M:%S"`. -/
def tryFmtYmdHms (s : Str) : Option PyDateTime :=
  runFormat <|
    pbind (pYear4 s) fun y s1 =>
    pbind (pLit '-' s1) fun _ s2 =>
    pbind (pMonth2 s2) fun mo s3 =>
    pbind (pLit '-' s3) fun _ s4 =>
    pbind (pDay2 s4) fun d s5 =>
    pbind (pWs1 s5) fun _ s6 =>
    pbind (pHour2 s6) fun h s7 =>
    pbind (pLit ':' s7) fun _ s8 =>
    pbind (pMin2 s8) fun mi s9 =>
    pbind (pLit ':' s9) fun _ s10 =>
    (pSec2 s10).map (fun p => ((y, mo, d, h, mi, p.1, none), p.2))

/-- Format `"%Y-%m-%d"` (date only). -/
def tryFmtYmd (s : Str) : Option PyDateTime :=
  runFormat <|
    pbind (pYear4 s) fun y s1 =>
    pbind (pLit '-' s1) fun _ s2 =>
    pbind (pMonth2 s2) fun mo s3 =>
    pbind (pLit '-' s3) fun _ s4 =>
    (pDay2 s4).map (fun p => ((y, mo, p.1, 0, 0, 0, none), p.2))

/-- One or two digits, greedy (`\d{1,2}`), used by the Korean date regex. -/
def pDig12 : Str → List (Nat × Str)
  | a :: b :: rest =>
    (if a.isDigit && b.isDigit then [(dval a * 10 + dval b, rest)] else []) ++
    (if a.isDigit then [(dval a, b :: rest)] else [])
  | [a] => if a.isDigit then [(dval a, [])] else []
  | [] => []

/-- Exactly four digits (`\d{4}` of the Korean date regex). -/
def pDig4 : Str → List (Nat × Str) := pYear4

/-- Attempt the Korean date regex `(\d{4})년\s*(\d{1,2})월\s*(\d{1,2})일`
anchored at the current position (`re.search` is the leftmost such
attempt). -/
def pKoreanAt (s : Str) : Option (Nat × Nat × Nat) :=
  ((pbind (pDig4 s) fun y s1 =>
    pbind (pLit '년' s1) fun _ s2 =>
    let s2' := s2.dropWhile isPySpace
    pbind (pDig12 s2') fun mo s3 =>
    pbind (pLit '월' s3) fun _ s4 =>
    let s4' := s4.dropWhile isPySpace
    pbind (pDig12 s4') fun d s5 =>
    pbind (pLit '일' s5) fun _ s6 =>
    [((y, mo, d), s6)]).head?).map Prod.fst

/-- Leftmost `re.search` scan for the Korean date pattern. -/
def koreanScan : Str → Option (Nat × Nat × Nat)
  | [] => none
  | c :: cs =>
    match pKoreanAt (c :: cs) with
    | some v => some v
    | none => koreanScan cs

/-- `_parse_pub_date` from `src/module/news_utils.py` (identical in
`blog_utils.py`): empty string gives `None`; otherwise the five strptime
formats are tried in order on the stripped string; finally the Korean
`"Y년 M월 D일"` pattern is searched in the original string.  A first match
whose calendar values are invalid raises inside `datetime`, which the
source catches and turns into `None` (formats: moving on to the next one;
Korean branch: returning `None`).  The function never throws. -/
def parse_pub_date (date_str : Str) : Option PyDateTime :=
  if date_str = [] then none
  else
    let t := pyStrip date_str
    match tryFmtRssName t with
    | some d => some d
    | none =>
      match tryFmtRssOffset t with
      | some d => some d
      | none =>
        match tryFmtIso t with
        | some d => some d
        | none =>
          match tryFmtYmdHms t with
          | some d => some d
          | none =>
            match tryFmtYmd t with
            | some d => some d
            | none =>
              match koreanScan date_str with
              | some (y, mo, d) => mkPyDateTime y mo d 0 0 0 none
              | none => none

/-- Decimal digits of a number, zero-padded to `width`. -/
def padNum (width n : Nat) : Str :=
  let ds := Nat.toDigits 10 n
  List.replicate (width - ds.length) '0' ++ ds

/-- `strftime("%Y-%m-%d %H:%M")`, the display format used for
`pub_date`. -/
def pyStrftimeYmdHm (d : PyDateTime) : Str :=
  padNum 4 d.year ++ [('-' : Char)] ++ padNum 2 d.month ++ [('-' : Char)] ++ padNum 2 d.day
    ++ [(' ' : Char)] ++ padNum 2 d.hour ++ [(':' : Char)] ++ padNum 2 d.minute

/-! ### Regex substitutions used by `_clean_description` -/

/-- Generic model of `re.sub(pattern, "", s)` for a pattern that always
consumes at least one character: scan left to right; at a match, delete it
and continue after it.  `try1` returns the rest of the string after a match
at the current position.  Fuel is the string length, which suffices because
every step consumes at least one character. -/
def subScan (try1 : Str → Option Str) : Nat → Str → Str
  | 0, s => s
  | _ + 1, [] => []
  | fuel + 1, c :: cs =>
    match try1 (c :: cs) with
    | some rest => subScan try1 fuel rest
    | none => c :: subScan try1 fuel cs

def runSub (try1 : Str → Option Str) (s : Str) : Str :=
  subScan try1 (s.length + 1) s

/-- Match of `<[^>]+>` at the current position (HTML-tag removal). -/
def tagMatch : Str → Option Str
  | '<' :: cs =>
    let inner := cs.takeWhile (fun c => c ≠ '>')
    if 1 ≤ inner.length ∧ inner.length < cs.length then
      some (cs.drop (inner.length + 1))
    else none
  | _ => none

/-- Match of `https?://[^\s]+` at the current position. -/
def httpMatch (s : Str) : Option Str :=
  let afterScheme : Option Str :=
    if (("https://").data).isPrefixOf s then some (s.drop 8)
    else if (("http://").data).isPrefixOf s then some (s.drop 7)
    else none
  match afterScheme with
  | some r =>
    let run := r.takeWhile (fun c => !isPySpace c)
    if 1 ≤ run.length then some (r.drop run.length) else none
  | none => none

/-- Match of `www\.[^\s]+` at the current position. -/
def wwwMatch (s : Str) : Option Str :=
  if (("www.").data).isPrefixOf s then
    let r := s.drop 4
    let run := r.takeWhile (fun c => !isPySpace c)
    if 1 ≤ run.length then some (r.drop run.length) else none
  else none

def isDomainChar (c : Char) : Bool := c.isAlphanum || c = '.' || c = '-'

/-- Match of `[a-zA-Z0-9.-]+\.(alt1|alt2|...)\b` at the current position:
the greedy `+` backtracks from the longest prefix of domain characters;
for each prefix length the alternatives are tried in order; `\b` requires
a non-word character (or the end) after the match. -/
def domainMatchAt (alts : List Str) (s : Str) : Option Str :=
  let run := s.takeWhile isDomainChar
  (((List.range (run.length + 1)).reverse).findSome? (fun preLen =>
    if preLen = 0 then none
    else alts.findSome? (fun alt =>
      if ('.' :: alt).isPrefixOf (s.drop preLen) then
        let rest := s.drop (preLen + 1 + alt.length)
        match rest.head? with
        | some c => if isWordCh c then none else some rest
        | none => some rest
      else none)))

def newsDomainAlts : List Str :=
  [("com"), ("net"), ("co.kr"), ("org")].map String.data

def blogDomainAlts : List Str :=
  [("com"), ("net"), ("co.kr"), ("org"), ("tistory.com"), ("naver.com")].map String.data

/-- Match of `v\.[a-zA-Z0-9.-]+\.[a-zA-Z]{2,}` at the current position
(news only). -/
def vdotMatch (s : Str) : Option Str :=
  match s with
  | 'v' :: '.' :: r =>
    let run := r.takeWhile isDomainChar
    ((List.range (run.length + 1)).reverse).findSome? (fun k =>
      if k = 0 then none
      else match r.drop k with
        | '.' :: r2 =>
          let alphaRun := r2.takeWhile (fun c => c.isAlpha)
          if 2 ≤ alphaRun.length then some (r2.drop alphaRun.length) else none
        | _ => none)
  | _ => none

/-- Remove the leftmost end-anchored match of `matchTail`: the result is
the prefix before the first position whose suffix matches. -/
def stripTailMatch (matchTail : Str → Bool) (s : Str) : Str :=
  if matchTail s then []
  else
    match s with
    | [] => []
    | c :: cs => c :: stripTailMatch matchTail cs

/-- End-anchored pattern
`\s*-\s*[가-힣A-Za-z]+(?:저널|뉴스|...|닷컴|\.com|\.net|\.co\.kr)?\s*$` of the
news `_clean_description`: optional whitespace, a dash, optional
whitespace, a nonempty run of letters/Hangul (which greedily swallows the
Korean suffix alternatives), an optional dotted suffix, trailing
whitespace. -/
def newsCleanTail (s : Str) : Bool :=
  let s1 := s.dropWhile isPySpace
  match s1 with
  | '-' :: s2 =>
    let s3 := s2.dropWhile isPySpace
    let run := s3.takeWhile (fun c => c.isAlpha || isHangulSyl c)
    if run = [] then false
    else
      let s4 := s3.drop run.length
      (s4.all isPySpace) ||
        ([(".com"), (".net"), (".co.kr")].map String.data).any (fun dot =>
          dot.isPrefixOf s4 && (s4.drop dot.length).all isPySpace)
  | _ => false

/-- End-anchored pattern `\s*-\s*[가-힣A-Za-z0-9]+(?:블로그|BLOG|Blog)?\s*$`
of the blog `_clean_description` (all suffix alternatives fall inside the
greedy character-class run). -/
def blogCleanTail (s : Str) : Bool :=
  let s1 := s.dropWhile isPySpace
  match s1 with
  | '-' :: s2 =>
    let s3 := s2.dropWhile isPySpace
    let run := s3.takeWhile (fun c => c.isAlphanum || isHangulSyl c)
    run ≠ [] && (s3.drop run.length).all isPySpace
  | _ => false

/-- Python `s.split(sep)` for a nonempty separator (leftmost,
non-overlapping). -/
def splitOnStrAux (sep : Str) : Nat → Str → List Str
  | 0, s => [s]
  | _ + 1, [] => [[]]
  | fuel + 1, c :: cs =>
    if sep.isPrefixOf (c :: cs) ∧ sep ≠ [] then
      [] :: splitOnStrAux sep fuel ((c :: cs).drop sep.length)
    else
      match splitOnStrAux sep fuel cs with
      | [] => [[c]]
      | t :: ts => (c :: t) :: ts

def splitOnStr (sep s : Str) : List Str := splitOnStrAux sep (s.length + 1) s

/-- The final length cap of `_clean_description` (identical in both
modules): applied when the cleaned text exceeds 150 characters — prefer
cutting at the first `". "` sentence boundary, else hard-truncate to 147
characters plus `"..."`. -/
def descTruncate (d : Str) : Str :=
  let sentences := splitOnStr ((". ").data) d
  if 1 < sentences.length then
    let c := sentences.headI ++ [('.' : Char)]
    if 150 < c.length then c.take 147 ++ ("...").data else c
  else d.take 147 ++ ("...").data

/-- `_clean_description` from `src/module/news_utils.py`. -/
def news_clean_description (description : Str) : Str :=
  if description = [] then ("요약 정보 없음").data
  else
    let d1 := runSub tagMatch description
    let d2 := pyStrip (collapseWs d1)
    let d3 := stripTailMatch newsCleanTail d2
    let d4 := runSub httpMatch d3
    let d5 := runSub wwwMatch d4
    let d6 := runSub (domainMatchAt newsDomainAlts) d5
    let d7 := runSub vdotMatch d6
    if (pyStrip d7).length < 20 then ("기사 본문에서 상세 내용을 확인하세요").data
    else
      let d8 := pyStrip (collapseWs d7)
      let d9 := if 150 < d8.length then descTruncate d8 else d8
      if pyStrip d9 ≠ [] then d9 else ("기사 본문에서 상세 내용을 확인하세요").data

/-- `_clean_description` from `src/module/blog_utils.py`. -/
def blog_clean_description (description : Str) : Str :=
  if description = [] then ("요약 정보 없음").data
  else
    let d1 := runSub tagMatch description
    let d2 := pyStrip (collapseWs d1)
    let d3 := stripTailMatch blogCleanTail d2
    let d4 := runSub httpMatch d3
    let d5 := runSub wwwMatch d4
    let d6 := runSub (domainMatchAt blogDomainAlts) d5
    if (pyStrip d6).length < 20 then ("블로그 본문에서 상세 내용을 확인하세요").data
    else
      let d7 := pyStrip (collapseWs d6)
      let d8 := if 150 < d7.length then descTruncate d7 else d7
      if pyStrip d8 ≠ [] then d8 else ("블로그 본문에서 상세 내용을 확인하세요").data

/-! ### `_generate_summary` -/

/-- `re.split(r"[.!?]", content)`. -/
def splitSentAux (cur : Str) : Str → List Str
  | [] => [cur.reverse]
  | c :: cs =>
    if c = '.' || c = '!' || c = '?' then cur.reverse :: splitSentAux [] cs
    else splitSentAux (c :: cur) cs

def splitSent (s : Str) : List Str := splitSentAux [] s

/-- Maximal runs of Hangul syllables of length ≥ 2
(`re.findall(r"[가-힣]{2,}", s)`), accumulated in reverse. -/
def hangulRunsAux (cur : Str) : Str → List Str
  | [] => if 2 ≤ cur.length then [cur.reverse] else []
  | c :: cs =>
    if isHangulSyl c then hangulRunsAux (c :: cur) cs
    else (if 2 ≤ cur.length then [cur.reverse] else []) ++ hangulRunsAux [] cs

/-- The `set(re.findall(r"[가-힣]{2,}", s))` keyword set. -/
def hangulKeywords (s : Str) : Finset Str := (hangulRunsAux [] s).toFinset

def startsWithAny (s : Str) (ps : List Str) : Bool := ps.any (fun p => p.isPrefixOf s)

def endsWithAny (s : Str) (ps : List Str) : Bool := ps.any (fun p => p.isSuffixOf s)

/-- `re.match(r"^[\d\s\-()]+$", s)`: nonempty and all characters digits,
whitespace, dashes or parentheses. -/
def digitsPunctOnly (s : Str) : Bool :=
  s ≠ [] && s.all (fun c => c.isDigit || isPySpace c || c = '-' || c = '(' || c = ')')

def newsBadStarts : List Str :=
  [("기자"), ("사진"), ("영상"), ("출처"), ("저작권"), ("▲"), ("■"), ("※"), ("이메일")].map
    String.data

def newsBadEnds : List Str := [("기자"), ("제공"), ("=연합뉴스")].map String.data

def blogBadStarts : List Str := [("사진"), ("이미지"), ("출처"), ("©")].map String.data

/-- `". ".join(l)`. -/
def joinDotSpace (l : List Str) : Str := List.intercalate ((". ").data) l

/-- End-anchored pattern `\s*-\s*[가-힣A-Za-z0-9]+(?:저널|뉴스|신문|일보|방송|미디어)?\s*$`
used on the title in the news `_generate_summary` fallback (the Korean
suffix alternatives fall inside the greedy class run). -/
def newsTitleTail (s : Str) : Bool :=
  let s1 := s.dropWhile isPySpace
  match s1 with
  | '-' :: s2 =>
    let s3 := s2.dropWhile isPySpace
    let run := s3.takeWhile (fun c => c.isAlphanum || isHangulSyl c)
    run ≠ [] && (s3.drop run.length).all isPySpace
  | _ => false

/-- The final clip of a content-based summary (both modules): truncate to
147 characters plus `"..."` when over 150, else ensure a trailing
period. -/
def summaryClip (summary : Str) : Str :=
  if 150 < summary.length then summary.take 147 ++ ("...").data
  else if ((".").data).isSuffixOf summary = false then summary ++ [('.' : Char)]
  else summary

/-- The content tier shared by both `_generate_summary` functions,
parameterized by the module's sentence filter: split into sentences, keep
the meaningful ones scored by shared Hangul keywords with the title, sort
by score (stable, descending), join the top two with `". "`, retry with
sentences 2–3 when the result echoes the title (similarity > 0.7), then
clip.  Returns `none` when no meaningful sentence survives. -/
def contentTier (sentenceOk : Str → Bool) (title content : Str) : Option Str :=
  let sentences := (splitSent content).map pyStrip
  let title_keywords := hangulKeywords title
  let meaningful := sentences.filterMap (fun sentence =>
    if sentenceOk sentence then
      some (sentence, (title_keywords ∩ hangulKeywords sentence).card)
    else none)
  if meaningful = [] then none
  else
    let sorted := List.insertionSort (fun a b => b.2 ≤ a.2) meaningful
    let summary := joinDotSpace ((sorted.take 2).map Prod.fst)
    let summary2 :=
      if mkRat 7 10 < calculate_similarity (normalize_title title) (normalize_title summary)
      then
        if 2 < sorted.length then joinDotSpace (((sorted.drop 1).take 2).map Prod.fst)
        else summary
      else summary
    some (summaryClip summary2)

/-- The sentence filter of the news `_generate_summary`. -/
def newsSentenceOk (sentence : Str) : Bool :=
  20 < sentence.length && sentence.length < 200
    && !startsWithAny sentence newsBadStarts
    && !endsWithAny sentence newsBadEnds
    && !digitsPunctOnly sentence
    && !strHas sentence (("광고").data)
    && !strHas sentence (("홍보").data)
    && !strHas (pyLower sentence) (("copyright").data)

/-- The sentence filter of the blog `_generate_summary`. -/
def blogSentenceOk (sentence : Str) : Bool :=
  20 < sentence.length && sentence.length < 200
    && !startsWithAny sentence blogBadStarts
    && !digitsPunctOnly sentence
    && !strHas sentence (("광고").data)
    && !strHas sentence (("홍보").data)

/-- `_generate_summary` from `src/module/news_utils.py`: content tier,
then cleaned-description tier, then the title-derived fallback. -/
def news_generate_summary (title content description : Str) : Str :=
  let tier1 : Option Str :=
    if content ≠ [] ∧ 50 < (pyStrip content).length then
      contentTier newsSentenceOk title content
    else none
  match tier1 with
  | some s => s
  | none =>
    let tier2 : Option Str :=
      if description ≠ [] then
        let cleaned := news_clean_description description
        if cleaned ≠ []
            ∧ cleaned ≠ ("요약 정보 없음").data
            ∧ cleaned ≠ ("기사 본문에서 상세 내용을 확인하세요").data
            ∧ calculate_similarity (normalize_title title) (normalize_title cleaned)
              < mkRat 8 10
        then some cleaned else none
      else none
    match tier2 with
    | some s => s
    | none =>
      let tws := stripTailMatch newsTitleTail title
      if strHas tws (("개최").data) ∨ strHas tws (("진행").data) then
        pyStrip tws ++ ("에 대한 상세 내용을 기사에서 확인할 수 있습니다.").data
      else if strHas tws (("발표").data) ∨ strHas tws (("계획").data) then
        pyStrip tws ++ ("에 관한 구체적인 내용이 포함되어 있습니다.").data
      else ("기사 본문에서 상세 내용을 확인하세요.").data

/-- `_generate_summary` from `src/module/blog_utils.py`: content tier,
then cleaned-description tier, then a fixed placeholder. -/
def blog_generate_summary (title content description : Str) : Str :=
  let tier1 : Option Str :=
    if content ≠ [] ∧ 50 < (pyStrip content).length then
      contentTier blogSentenceOk title content
    else none
  match tier1 with
  | some s => s
  | none =>
    let tier2 : Option Str :=
      if description ≠ [] then
        let cleaned := blog_clean_description description
        if cleaned ≠ []
            ∧ cleaned ≠ ("요약 정보 없음").data
            ∧ cleaned ≠ ("블로그 본문에서 상세 내용을 확인하세요").data
            ∧ calculate_similarity (normalize_title title) (normalize_title cleaned)
              < mkRat 8 10
        then some cleaned else none
      else none
    match tier2 with
    | some s => s
    | none => ("블로그 본문에서 상세 내용을 확인하세요.").data

/-! ### Source attribution -/

/-- Python `s.replace(pat, rep)` for a nonempty `pat`: replace all
non-overlapping occurrences, left to right. -/
def replaceAllAux (pat rep : Str) : Nat → Str → Str
  | 0, s => s
  | _ + 1, [] => []
  | fuel + 1, c :: cs =>
    if pat.isPrefixOf (c :: cs) ∧ pat ≠ [] then
      rep ++ replaceAllAux pat rep fuel ((c :: cs).drop pat.length)
    else c :: replaceAllAux pat rep fuel cs

def replaceAll (pat rep s : Str) : Str := replaceAllAux pat rep (s.length + 1) s

/-- Python `str.title()`: uppercase a cased (ASCII-alphabetic) character
that follows a non-cased one, lowercase the other cased characters. -/
def pyTitleCaseAux (prevCased : Bool) : Str → Str
  | [] => []
  | c :: cs =>
    if c.isAlpha then
      (if prevCased then c.toLower else c.toUpper) :: pyTitleCaseAux true cs
    else c :: pyTitleCaseAux false cs

def pyTitleCase (s : Str) : Str := pyTitleCaseAux false s

/-- The rest of the string after the first occurrence of `pat`. -/
def afterSub (pat : Str) : Str → Option Str
  | [] => none
  | c :: cs =>
    if pat.isPrefixOf (c :: cs) then some ((c :: cs).drop pat.length)
    else afterSub pat cs

/-- `urlparse(link).netloc` for the `scheme://netloc/path` URLs this
program handles: the text between `"://"` and the next `/`, `?` or `#`
(empty when the link has no scheme separator). -/
def urlNetloc (link : Str) : Str :=
  match afterSub (("://").data) link with
  | some rest => rest.takeWhile (fun c => c ≠ '/' ∧ c ≠ '?' ∧ c ≠ '#')
  | none => []

/-- `urlparse(link).path` under the same URL shapes. -/
def urlPath (link : Str) : Str :=
  match afterSub (("://").data) link with
  | some rest =>
    let netloc := rest.takeWhile (fun c => c ≠ '/' ∧ c ≠ '?' ∧ c ≠ '#')
    (rest.drop netloc.length).takeWhile (fun c => c ≠ '?' ∧ c ≠ '#')
  | none => link.takeWhile (fun c => c ≠ '?' ∧ c ≠ '#')

/-- The duck-typed `source` field of a raw item: a dict (with optional
`title`/`name` keys), a plain string, or anything else (including the
default `{}` for a missing field, which is `dict none none`). -/
inductive SourceVal
  | dict (titleF nameF : Option Str)
  | strv (s : Str)
  | other
deriving DecidableEq

/-- `_extract_source` from `src/module/news_utils.py`:
`source_info.get("title", source_info.get("name", "알 수 없는 출처"))` on
dicts, the string itself on strings, the default otherwise. -/
def extract_source : SourceVal → Str
  | .dict (some t) _ => t
  | .dict none (some n) => n
  | .dict none none => ("알 수 없는 출처").data
  | .strv s => s
  | .other => ("알 수 없는 출처").data

def newsMediaSuffixes : List Str :=
  [("저널"), ("뉴스"), ("신문"), ("일보"), ("방송"), ("미디어"), ("타임즈"),
   ("헤럴드"), ("포스트"), ("투데이"), ("데일리"), ("위클리")].map String.data

def shortMediaSuffixes : List Str :=
  [("저널"), ("뉴스"), ("신문"), ("일보"), ("방송"), ("미디어")].map String.data

def rtrim (s : Str) : Str := (s.reverse.dropWhile isPySpace).reverse

def trailingClassRun (cls : Char → Bool) (s : Str) : Str :=
  (s.reverse.takeWhile cls).reverse

/-- `[class]+(?:sfx1|...)` anchored at the end: the trailing class run must
end with a suffix alternative preceded by at least one more class
character. -/
def endsWithMediaSuffix (sfxs : List Str) (run : Str) : Bool :=
  sfxs.any (fun sfx => sfx.isSuffixOf run && sfx.length < run.length)

/-- Capture of `\s*-\s*([가-힣A-Za-z0-9]+(?:저널|…|위클리))\s*$` on the title:
the trailing alphanumeric/Hangul run (which must end with a media suffix
and be preceded by a dash modulo whitespace). -/
def titleSourceCapture (title : Str) : Option Str :=
  let t1 := rtrim title
  let run := trailingClassRun (fun c => c.isAlphanum || isHangulSyl c) t1
  let before := t1.take (t1.length - run.length)
  if run ≠ [] && endsWithMediaSuffix newsMediaSuffixes run
      && (match before.reverse.dropWhile isPySpace with | '-' :: _ => true | _ => false)
  then some run else none

/-- Capture of `\s*-?\s*([가-힣A-Za-z0-9]+(?:저널|…|위클리))\s*$` on the
description (the dash is optional, so only the trailing run matters). -/
def descSourceCapture (description : Str) : Option Str :=
  let t1 := rtrim description
  let run := trailingClassRun (fun c => c.isAlphanum || isHangulSyl c) t1
  if run ≠ [] ∧ endsWithMediaSuffix newsMediaSuffixes run then some run else none

/-- Leftmost-position scan of a matcher (`re.search`). -/
def scanFor (f : Str → Option Str) : Str → Option Str
  | [] => none
  | c :: cs =>
    match f (c :: cs) with
    | some r => some r
    | none => scanFor f cs

/-- Capture of `open([class]+(?:sfx))close` at the current position: the
bracketed text is a maximal class run ending in a media suffix with at
least one extra character. -/
def bracketSourceAt (openC closeC : Char) (sfxs : List Str) (s : Str) : Option Str :=
  match s with
  | c :: cs =>
    if c = openC then
      let run := cs.takeWhile (fun d => d.isAlphanum || isHangulSyl d)
      if run ≠ [] ∧ (cs.drop run.length).head? = some closeC
          ∧ endsWithMediaSuffix sfxs run
      then some run else none
    else none
  | [] => none

/-- The `domain_mapping` table of
`_extract_source_from_title_and_description`, in source order. -/
def newsDomainMapping : List (Str × Str) :=
  [(("news.naver.com"), ("네이버뉴스")), (("news.daum.net"), ("다음뉴스")),
   (("v.daum.net"), ("다음뉴스")), (("news.google.com"), ("구글뉴스")),
   (("yna.co.kr"), ("연합뉴스")), (("yonhapnews.co.kr"), ("연합뉴스")),
   (("chosun.com"), ("조선일보")), (("donga.com"), ("동아일보")),
   (("joongang.co.kr"), ("중앙일보")), (("hani.co.kr"), ("한겨레")),
   (("khan.co.kr"), ("경향신문")), (("mt.co.kr"), ("머니투데이")),
   (("mk.co.kr"), ("매일경제")), (("hankyung.com"), ("한국경제")),
   (("sbs.co.kr"), ("SBS")), (("kbs.co.kr"), ("KBS")),
   (("mbc.co.kr"), ("MBC")), (("newspim.com"), ("뉴스핌")),
   (("news1.kr"), ("뉴스1")), (("pressian.com"), ("프레시안")),
   (("ohmynews.com"), ("오마이뉴스")), (("sisain.co.kr"), ("시사IN")),
   (("hankookilbo.com"), ("한국일보")), (("seoul.co.kr"), ("서울신문")),
   (("munhwa.com"), ("문화일보")), (("dt.co.kr"), ("디지털타임스")),
   (("etnews.com"), ("전자신문")), (("zdnet.co.kr"), ("ZDNet Korea"))].map
    (fun p => (p.1.data, p.2.data))

def mediaDomainKeywords : List Str :=
  [("news"), ("journal"), ("daily"), ("times"), ("post"), ("herald")].map String.data

/-- `_extract_source_from_title_and_description` from
`src/module/news_utils.py`: title pattern, then description pattern, then
the link-domain table (exact, partial, then domain-part heuristics), then
parenthesized and square-bracketed media names, then the generic
placeholder. -/
def extract_source_from_title_and_description (title description link : Str) : Str :=
  match titleSourceCapture title with
  | some g => g
  | none =>
  match descSourceCapture description with
  | some g => g
  | none =>
  let fromLink : Option Str :=
    if link ≠ [] then
      let domain := pyLower (urlNetloc link)
      match newsDomainMapping.find? (fun p => p.1 = domain) with
      | some p => some p.2
      | none =>
        match newsDomainMapping.find? (fun p => strHas domain p.1 || strHas p.1 domain) with
        | some p => some p.2
        | none =>
          let domain_parts := splitOnStr ([('.' : Char)]) (replaceAll (("www.").data) [] domain)
          if 2 ≤ domain_parts.length then
            let maindom := domain_parts.headI
            if mediaDomainKeywords.any (fun kw => strHas maindom kw) then
              some (pyTitleCase maindom)
            else if (("news").data).isSuffixOf maindom ∨ (("journal").data).isSuffixOf maindom then
              some (pyTitleCase
                (replaceAll (("journal").data) (("저널").data)
                  (replaceAll (("news").data) (("뉴스").data) maindom)))
            else none
          else none
    else none
  match fromLink with
  | some g => g
  | none =>
  let combined := title ++ [' '] ++ description
  match scanFor (bracketSourceAt '(' ')' shortMediaSuffixes) combined with
  | some g => g
  | none =>
  match scanFor (bracketSourceAt '[' ']' shortMediaSuffixes) combined with
  | some g => g
  | none => ("알 수 없는 출처").data

/-- Match of `\s*[:：]\s*네이버\s*블로그` at the current position (the split
pattern of `_extract_blog_source`). -/
def naverSplitAt (s : Str) : Bool :=
  match s.dropWhile isPySpace with
  | c :: s2 =>
    if c = ':' ∨ c = '：' then
      let s3 := s2.dropWhile isPySpace
      if (("네이버").data).isPrefixOf s3 then
        (("블로그").data).isPrefixOf ((s3.drop 3).dropWhile isPySpace)
      else false
    else false
  | [] => false

/-- Match of `\s*-\s*티스토리` at the current position. -/
def tistorySplitAt (s : Str) : Bool :=
  match s.dropWhile isPySpace with
  | '-' :: s2 => (("티스토리").data).isPrefixOf (s2.dropWhile isPySpace)
  | _ => false

/-- Capture of `\(([가-힣A-Za-z0-9]+\s*블로그)\)` at the current position:
the parenthesized text must be a nonempty class run, optional whitespace,
then `블로그`, with the closing parenthesis right after. -/
def blogBracketAt (s : Str) : Option Str :=
  match s with
  | '(' :: cs =>
    let inner := cs.takeWhile (fun c => c ≠ ')')
    if inner.length < cs.length ∧ (("블로그").data).isSuffixOf inner then
      let b := inner.take (inner.length - 3)
      let a := rtrim b
      if a ≠ [] ∧ a.all (fun c => c.isAlphanum || isHangulSyl c) then some inner
      else none
    else none
  | _ => none

/-- `_extract_blog_source` from `src/module/blog_utils.py`: platform
markers in the title, then the link's domain (tistory/naver/brunch/medium/
generic blog keywords), then a bracketed blog name, then `"블로그"`. -/
def extract_blog_source (link title description : Str) : Str :=
  let fromTitle : Option Str :=
    if title ≠ [] then
      if strHas title (("네이버 블로그").data) ∨ strHas title ((": 네이버 블로그").data) then
        let parts0 := stripTailMatch naverSplitAt title
        if parts0 ≠ [] then
          some ((pyStrip parts0).take 30 ++ ("... (네이버 블로그)").data)
        else some (("네이버 블로그").data)
      else if strHas title (("티스토리").data) ∨ strHas title (("- 티스토리").data) then
        let parts0 := stripTailMatch tistorySplitAt title
        if parts0 ≠ [] then
          some ((pyStrip parts0).take 30 ++ ("... (티스토리)").data)
        else some (("티스토리").data)
      else if strHas title (("브런치").data) ∨ strHas (pyLower title) (("brunch").data) then
        some (("브런치").data)
      else if strHas title (("NAVER").data) ∨ strHas (pyLower title) (("naver").data) then
        some (("네이버 블로그").data)
      else none
    else none
  match fromTitle with
  | some g => g
  | none =>
  let fromLink : Option Str :=
    if link ≠ [] then
      let domain := pyLower (urlNetloc link)
      if strHas domain (("tistory.com").data) then
        some (replaceAll (("www.").data) [] (replaceAll ((".tistory.com").data) [] domain)
          ++ (" (티스토리)").data)
      else if strHas domain (("blog.naver.com").data) then
        let parts := splitOnStr ([('/' : Char)]) (urlPath link)
        if 1 < parts.length then some (parts.getD 1 [] ++ (" (네이버 블로그)").data)
        else some (("네이버 블로그").data)
      else if strHas domain (("brunch.co.kr").data) then
        let parts := splitOnStr ([('/' : Char)]) (urlPath link)
        if 1 < parts.length ∧ parts.headI = [] then
          some (('@' :: replaceAll (("@").data) [] (parts.getD 1 [])) ++ (" (브런치)").data)
        else some (("브런치").data)
      else if strHas domain (("medium.com").data) then
        let parts := splitOnStr ([('/' : Char)]) (urlPath link)
        if 1 < parts.length ∧ (("@").data).isPrefixOf (parts.getD 1 []) then
          some (parts.getD 1 [] ++ (" (미디엄)").data)
        else some (("미디엄").data)
      else if ([("blog"), ("diary"), ("note"), ("post"), ("story")].map
            String.data).any (fun kw => strHas domain kw) then
        some (replaceAll (("www.").data) [] domain ++ (" (블로그)").data)
      else none
    else none
  match fromLink with
  | some g => g
  | none =>
  match scanFor blogBracketAt (title ++ [' '] ++ description) with
  | some g => g
  | none => ("블로그").data

/-! ### The search pipelines -/

/-- A raw feed item as delivered by the rss2json collaborator; absent
string fields are `""` (the `article.get(..., "")` defaults), an absent
`source` field is the empty dict. -/
structure RawItem where
  title : Str
  description : Str
  link : Str
  pubDate : Str
  source : SourceVal
deriving DecidableEq

/-- An accepted article record before the final `pop("pub_date_raw")`. -/
structure ArticleRec where
  title : Str
  summary : Str
  source : Str
  link : Str
  pub_date : Str
  pub_date_raw : Option PyDateTime
deriving DecidableEq

/-- The public record shape after `pub_date_raw` is removed (also the
shape of the fallback records, which never carry a raw date). -/
structure PubRec where
  title : Str
  summary : Str
  source : Str
  link : Str
  pub_date : Str
deriving DecidableEq

def ArticleRec.toPub (r : ArticleRec) : PubRec :=
  ⟨r.title, r.summary, r.source, r.link, r.pub_date⟩

/-- The per-item summary step of the news pipeline with its local
`try/except`: fetch the page content when a link is present (the
collaborator `_fetch_article_content` is a parameter that may raise) and
generate the summary; on an exception fall back to the cleaned
description. -/
def newsItemSummary (fetchContent : Str → Except Unit Str)
    (title description link : Str) : Str :=
  let contentRes : Except Unit Str := if link ≠ [] then fetchContent link else .ok []
  match contentRes with
  | .ok content => news_generate_summary title content description
  | .error _ => news_clean_description description

/-- The per-item summary step of the blog pipeline. -/
def blogItemSummary (fetchContent : Str → Except Unit Str)
    (title description link : Str) : Str :=
  let contentRes : Except Unit Str := if link ≠ [] then fetchContent link else .ok []
  match contentRes with
  | .ok content => blog_generate_summary title content description
  | .error _ => blog_clean_description description

/-- The news source step: structured source first, the title/description/
link heuristics when it is unknown. -/
def newsItemSource (item : RawItem) : Str :=
  let source := extract_source item.source
  if source = ("알 수 없는 출처").data then
    extract_source_from_title_and_description item.title item.description item.link
  else source

def blogItemSource (item : RawItem) : Str :=
  extract_blog_source item.link item.title item.description

/-- The time filter `if pub_date and pub_date < cutoff_time: continue`:
an unparsed date (`None` is falsy) is never skipped; a parsed date is
skipped exactly when it is older than the cutoff (the comparison itself
may raise for an offset-aware date). -/
def time_filter_skip (pub_date : Option PyDateTime) (cutoff : PyDateTime) :
    Except Unit Bool :=
  match pub_date with
  | some d => pyDtLt d cutoff
  | none => .ok false

/-- The shared item loop of `search_news_by_keyword` and
`search_blogs_by_keyword` (their loop bodies are textually identical up to
the source/summary steps, passed here as parameters): skip empty or
similar titles, skip promotional items, skip items whose parsed date is
older than the cutoff (`pub_date and pub_date < cutoff_time`; comparing an
offset-aware date with the naive cutoff raises, which the caller's
`except` turns into the fallback), then append the record and the
normalized title, stopping once `max_results` records are accepted. -/
def pipeline_loop (maxResults : Nat) (cutoff : PyDateTime)
    (sourceOf : RawItem → Str) (summaryOf : RawItem → Str) :
    List RawItem → List ArticleRec → List Str → Except Unit (List ArticleRec)
  | [], acc, _ => .ok acc
  | article :: rest, acc, seen =>
    let title := article.title
    if title = [] || is_similar_title title seen then
      pipeline_loop maxResults cutoff sourceOf summaryOf rest acc seen
    else if is_ad_or_promotional title article.description then
      pipeline_loop maxResults cutoff sourceOf summaryOf rest acc seen
    else
      let pub_date := parse_pub_date article.pubDate
      match time_filter_skip pub_date cutoff with
      | .error e => .error e
      | .ok true => pipeline_loop maxResults cutoff sourceOf summaryOf rest acc seen
      | .ok false =>
        let item : ArticleRec :=
          ⟨title, summaryOf article, sourceOf article, article.link,
            (match pub_date with
              | some d => pyStrftimeYmdHm d
              | none => ("시간 정보 없음").data),
            pub_date⟩
        let acc2 := acc ++ [item]
        let seen2 := seen ++ [normalize_title title]
        if maxResults ≤ acc2.length then .ok acc2
        else pipeline_loop maxResults cutoff sourceOf summaryOf rest acc2 seen2

/-- The sort key `x.get("pub_date_raw") or datetime.min`. -/
def recSortKey (r : ArticleRec) : PyDateTime := r.pub_date_raw.getD pyDatetimeMin

/-- `sort(key=..., reverse=True)`: stable descending order on the key
(records reaching the sort are all naive, so the field-lexicographic
comparison applies). -/
def recDescLe (a b : ArticleRec) : Bool := dtLeB (recSortKey b) (recSortKey a)

/-- The descending sort relation as a proposition; a stable sort under it
models Python's stable `list.sort`. -/
def recDescRel (a b : ArticleRec) : Prop := recDescLe a b = true

instance : DecidableRel recDescRel :=
  fun a b => inferInstanceAs (Decidable (recDescLe a b = true))

/-- The outcome of the upstream rss2json fetch: an exception anywhere in
the request/JSON decoding, or a response with an HTTP status code, a
payload `status` string, and the decoded `items`. -/
inductive FetchResult
  | err
  | response (statusCode : Nat) (payloadStatus : Str) (items : List RawItem)
deriving DecidableEq

/-- `_fallback_news_search`: tries the secondary donga RSS fetch
(`dongaStatus` is its HTTP status, `none` when it raised); on a 200 it
returns the single "results unavailable" notice, otherwise the single
"search failed" record.  `now` models `datetime.now()`. -/
def fallback_news_search (keyword : Str) (_maxResults : Nat)
    (dongaStatus : Option Nat) (now : PyDateTime) : List PubRec :=
  match dongaStatus with
  | some 200 =>
    [⟨keyword ++ (" 관련 뉴스 검색 결과를 가져올 수 없습니다").data,
      ("뉴스 API 서비스에 일시적인 문제가 발생했습니다.").data,
      ("시스템 알림").data, [], pyStrftimeYmdHm now⟩]
  | _ =>
    [⟨keyword ++ (" 뉴스 검색 실패").data,
      ("네트워크 문제나 API 서비스 장애로 뉴스를 가져올 수 없습니다.").data,
      ("시스템 오류").data, [], pyStrftimeYmdHm now⟩]

/-- `_fallback_blog_search`: always the single "search failed" record. -/
def fallback_blog_search (keyword : Str) (_maxResults : Nat)
    (now : PyDateTime) : List PubRec :=
  [⟨keyword ++ (" 블로그 검색 실패").data,
    ("네트워크 문제나 API 서비스 장애로 블로그 글을 가져올 수 없습니다.").data,
    ("시스템 오류").data, [], pyStrftimeYmdHm now⟩]

/-- `search_news_by_keyword` from `src/module/news_utils.py`.  `cutoff`
models `datetime.now() - timedelta(hours=hours_back)` and `now` models
`datetime.now()`; `fetch` is the outcome of the upstream request,
`fetchContent` the per-item page-content collaborator, `dongaStatus` the
fallback's secondary fetch outcome.  Failure of the fetch (exception,
non-200 status, non-ok payload) or an exception inside the loop yields the
fallback list; otherwise the accepted records are sorted newest first,
truncated to `maxResults`, and stripped of the raw date. -/
def search_news_by_keyword (keyword : Str) (maxResults : Nat)
    (cutoff now : PyDateTime) (fetchContent : Str → Except Unit Str)
    (dongaStatus : Option Nat) (fetch : FetchResult) : List PubRec :=
  match fetch with
  | .err => fallback_news_search keyword maxResults dongaStatus now
  | .response code st items =>
    if code ≠ 200 then fallback_news_search keyword maxResults dongaStatus now
    else if st ≠ ("ok").data then fallback_news_search keyword maxResults dongaStatus now
    else
      match pipeline_loop maxResults cutoff newsItemSource
          (fun a => newsItemSummary fetchContent a.title a.description a.link)
          items [] [] with
      | .error _ => fallback_news_search keyword maxResults dongaStatus now
      | .ok recs => ((List.insertionSort recDescRel recs).take maxResults).map ArticleRec.toPub

/-- `search_blogs_by_keyword` from `src/module/blog_utils.py` (same shape
as the news pipeline with the blog source/summary steps and fallback). -/
def search_blogs_by_keyword (keyword : Str) (maxResults : Nat)
    (cutoff now : PyDateTime) (fetchContent : Str → Except Unit Str)
    (fetch : FetchResult) : List PubRec :=
  match fetch with
  | .err => fallback_blog_search keyword maxResults now
  | .response code st items =>
    if code ≠ 200 then fallback_blog_search keyword maxResults now
    else if st ≠ ("ok").data then fallback_blog_search keyword maxResults now
    else
      match pipeline_loop maxResults cutoff blogItemSource
          (fun a => blogItemSummary fetchContent a.title a.description a.link)
          items [] [] with
      | .error _ => fallback_blog_search keyword maxResults now
      | .ok recs => ((List.insertionSort recDescRel recs).take maxResults).map ArticleRec.toPub

/-! ### Properties of the similarity score -/

theorem calc_sim_self (a : Str) : calculate_similarity a a = 1 := by
  unfold calculate_similarity
  by_cases h : (splitWs a).toFinset = (∅ : Finset Str)
  · simp [h]
  · have hcard : ((splitWs a).toFinset.card : ℚ) ≠ 0 := by
      exact_mod_cast Finset.card_ne_zero.mpr (Finset.nonempty_of_ne_empty h)
    simp only [h, and_self, if_false, Finset.union_self, Finset.inter_self,
      Rat.mkRat_eq_div]
    simp [h, div_self hcard]

theorem calc_sim_comm (a b : Str) :
    calculate_similarity a b = calculate_similarity b a := by
  unfold calculate_similarity
  simp only [Finset.union_comm, Finset.inter_comm, and_comm]

theorem calc_sim_nonneg (a b : Str) : 0 ≤ calculate_similarity a b := by
  unfold calculate_similarity
  dsimp only
  split_ifs with h1 h2
  · norm_num
  · norm_num
  · rw [Rat.mkRat_eq_div]
    positivity

theorem calc_sim_le_one (a b : Str) : calculate_similarity a b ≤ 1 := by
  unfold calculate_similarity
  dsimp only
  split_ifs with h1 h2
  · norm_num
  · norm_num
  · have hpos : (0 : ℚ) < (((splitWs a).toFinset ∪ (splitWs b).toFinset).card : ℚ) := by
      exact_mod_cast Finset.card_pos.mpr (Finset.nonempty_of_ne_empty h2)
    rw [Rat.mkRat_eq_div, div_le_one hpos]
    exact_mod_cast Finset.card_le_card Finset.inter_subset_union

/-! ### Idempotence of `_normalize_title` -/

/-- Closed facts about the ASCII case table: keys and values are word
characters and not whitespace, and every value is case-fixed. -/
theorem asciiCasePairs_facts :
    asciiCasePairs.all (fun p =>
      decide (pyLowerChar p.2 = p.2) && isWordCh p.1 && isWordCh p.2
        && !isPySpace p.1 && !isPySpace p.2) = true := by decide

theorem pyLowerChar_of_find?_none {c : Char}
    (h : asciiCasePairs.find? (fun p => p.1 = c) = none) : pyLowerChar c = c := by
  unfold pyLowerChar
  rw [h]

theorem pyLowerChar_of_find?_some {c : Char} {p : Char × Char}
    (h : asciiCasePairs.find? (fun q => q.1 = c) = some p) : pyLowerChar c = p.2 := by
  unfold pyLowerChar
  rw [h]

theorem pyLowerChar_idem (c : Char) : pyLowerChar (pyLowerChar c) = pyLowerChar c := by
  cases hf : asciiCasePairs.find? (fun p => p.1 = c) with
  | none => rw [pyLowerChar_of_find?_none hf, pyLowerChar_of_find?_none hf]
  | some p =>
    have hp := List.mem_of_find?_eq_some hf
    have hfacts := (List.all_eq_true.mp asciiCasePairs_facts) p hp
    simp only [Bool.and_eq_true, decide_eq_true_eq] at hfacts
    rw [pyLowerChar_of_find?_some hf, hfacts.1.1.1.1]

theorem isPySpace_pyLowerChar (c : Char) : isPySpace (pyLowerChar c) = isPySpace c := by
  cases hf : asciiCasePairs.find? (fun p => p.1 = c) with
  | none => rw [pyLowerChar_of_find?_none hf]
  | some p =>
    have hp := List.mem_of_find?_eq_some hf
    have hc : p.1 = c := by
      have := List.find?_some hf
      exact of_decide_eq_true this
    have hfacts := (List.all_eq_true.mp asciiCasePairs_facts) p hp
    simp only [Bool.and_eq_true, decide_eq_true_eq, Bool.not_eq_true'] at hfacts
    rw [pyLowerChar_of_find?_some hf, hfacts.2, ← hc, hfacts.1.2]

theorem isWordCh_pyLowerChar {c : Char} (h : isWordCh c = true) :
    isWordCh (pyLowerChar c) = true := by
  cases hf : asciiCasePairs.find? (fun p => p.1 = c) with
  | none => rw [pyLowerChar_of_find?_none hf]; exact h
  | some p =>
    have hp := List.mem_of_find?_eq_some hf
    have hfacts := (List.all_eq_true.mp asciiCasePairs_facts) p hp
    simp only [Bool.and_eq_true, decide_eq_true_eq] at hfacts
    rw [pyLowerChar_of_find?_some hf]
    exact hfacts.1.1.2

theorem pyLowerChar_space_iff (c : Char) : pyLowerChar c = ' ' ↔ c = ' ' := by
  constructor
  · intro h
    cases hf : asciiCasePairs.find? (fun p => p.1 = c) with
    | none => rw [pyLowerChar_of_find?_none hf] at h; exact h
    | some p =>
      have hp := List.mem_of_find?_eq_some hf
      have hfacts := (List.all_eq_true.mp asciiCasePairs_facts) p hp
      simp only [Bool.and_eq_true, decide_eq_true_eq, Bool.not_eq_true'] at hfacts
      rw [pyLowerChar_of_find?_some hf] at h
      have : isPySpace p.2 = true := by rw [h]; decide
      rw [hfacts.2] at this
      exact absurd this (by decide)
  · intro h
    subst h
    decide

theorem isWordCh_not_space {c : Char} (h : isPySpace c = true) : isWordCh c = false := by
  unfold isPySpace at h
  simp only [Bool.or_eq_true, decide_eq_true_eq] at h
  rcases h with ((((h | h) | h) | h) | h) | h <;> subst h <;> decide

/-- Adjacency invariant of collapsed strings: no two consecutive spaces. -/
def wsRel (a b : Char) : Prop := ¬(a = ' ' ∧ b = ' ')

theorem collapse_true_head {l : Str} {y : Char}
    (h : (collapseWsAux true l).head? = some y) : y ≠ ' ' := by
  induction l with
  | nil => simp [collapseWsAux] at h
  | cons c cs ih =>
    by_cases hc : isPySpace c
    · rw [show collapseWsAux true (c :: cs) = collapseWsAux true cs by
        simp [collapseWsAux, hc]] at h
      exact ih h
    · rw [show collapseWsAux true (c :: cs) = c :: collapseWsAux false cs by
        simp [collapseWsAux, hc]] at h
      simp only [List.head?_cons, Option.some.injEq] at h
      subst h
      intro hcon
      subst hcon
      exact hc (by decide)

theorem collapse_mem {l : Str} {c : Char} :
    ∀ {b : Bool}, c ∈ collapseWsAux b l → c = ' ' ∨ (c ∈ l ∧ isPySpace c = false) := by
  induction l with
  | nil => intro b h; simp [collapseWsAux] at h
  | cons d ds ih =>
    intro b h
    by_cases hd : isPySpace d
    · by_cases hb : b
      · subst hb
        rw [show collapseWsAux true (d :: ds) = collapseWsAux true ds by
          simp [collapseWsAux, hd]] at h
        rcases ih h with h1 | ⟨h1, h2⟩
        · exact Or.inl h1
        · exact Or.inr ⟨List.mem_cons_of_mem _ h1, h2⟩
      · rw [show b = false by simpa using hb] at h
        rw [show collapseWsAux false (d :: ds) = ' ' :: collapseWsAux true ds by
          simp [collapseWsAux, hd]] at h
        rcases List.mem_cons.mp h with h1 | h1
        · exact Or.inl h1
        · rcases ih h1 with h2 | ⟨h2, h3⟩
          · exact Or.inl h2
          · exact Or.inr ⟨List.mem_cons_of_mem _ h2, h3⟩
    · rw [show collapseWsAux b (d :: ds) = d :: collapseWsAux false ds by
        simp [collapseWsAux, hd]] at h
      rcases List.mem_cons.mp h with h1 | h1
      · subst h1
        exact Or.inr ⟨List.mem_cons_self _ _, by simpa using hd⟩
      · rcases ih h1 with h2 | ⟨h2, h3⟩
        · exact Or.inl h2
        · exact Or.inr ⟨List.mem_cons_of_mem _ h2, h3⟩

theorem collapse_chain (l : Str) : ∀ b, List.Chain' wsRel (collapseWsAux b l) := by
  induction l with
  | nil => intro b; simp [collapseWsAux]
  | cons d ds ih =>
    intro b
    by_cases hd : isPySpace d
    · by_cases hb : b
      · subst hb
        rw [show collapseWsAux true (d :: ds) = collapseWsAux true ds by
          simp [collapseWsAux, hd]]
        exact ih true
      · rw [show b = false by simpa using hb]
        rw [show collapseWsAux false (d :: ds) = ' ' :: collapseWsAux true ds by
          simp [collapseWsAux, hd]]
        rw [List.chain'_cons']
        refine ⟨fun y hy hcon => ?_, ih true⟩
        exact collapse_true_head hy hcon.2
    · rw [show collapseWsAux b (d :: ds) = d :: collapseWsAux false ds by
        simp [collapseWsAux, hd]]
      rw [List.chain'_cons']
      refine ⟨fun y hy hcon => ?_, ih false⟩
      rw [hcon.1] at hd
      exact hd (by decide)

theorem collapse_fixed {l : Str}
    (hchars : ∀ c ∈ l, c = ' ' ∨ isPySpace c = false)
    (hchain : List.Chain' wsRel l) :
    collapseWsAux false l = l ∧ (l.head? ≠ some ' ' → collapseWsAux true l = l) := by
  induction l with
  | nil => exact ⟨rfl, fun _ => rfl⟩
  | cons d ds ih =>
    have hd' := hchars d (List.mem_cons_self _ _)
    have hchars' : ∀ c ∈ ds, c = ' ' ∨ isPySpace c = false :=
      fun c hc => hchars c (List.mem_cons_of_mem _ hc)
    have hchain' : List.Chain' wsRel ds := (List.chain'_cons'.mp hchain).2
    have ihds := ih hchars' hchain'
    by_cases hd : isPySpace d
    · have hdsp : d = ' ' := by
        rcases hd' with h | h
        · exact h
        · rw [hd] at h; exact absurd h (by decide)
      subst hdsp
      have hh : ds.head? ≠ some ' ' := by
        intro hcon
        exact (List.chain'_cons'.mp hchain).1 ' ' hcon ⟨rfl, rfl⟩
      constructor
      · rw [show collapseWsAux false (' ' :: ds) = ' ' :: collapseWsAux true ds by
          simp [collapseWsAux, hd]]
        rw [ihds.2 hh]
      · intro hne
        exact absurd rfl hne
    · constructor
      · rw [show collapseWsAux false (d :: ds) = d :: collapseWsAux false ds by
          simp [collapseWsAux, hd]]
        rw [ihds.1]
      · intro _
        rw [show collapseWsAux true (d :: ds) = d :: collapseWsAux false ds by
          simp [collapseWsAux, hd]]
        rw [ihds.1]

theorem dropWhile_head_not {p : Char → Bool} {l : Str} {c : Char}
    (h : (l.dropWhile p).head? = some c) : p c = false := by
  induction l with
  | nil => simp at h
  | cons d ds ih =>
    by_cases hd : p d
    · rw [List.dropWhile_cons, if_pos hd] at h
      exact ih h
    · rw [List.dropWhile_cons, if_neg hd] at h
      simp only [List.head?_cons, Option.some.injEq] at h
      subst h
      simpa using hd

theorem chain'_dropWhile {R : Char → Char → Prop} {p : Char → Bool} {l : Str}
    (h : List.Chain' R l) : List.Chain' R (l.dropWhile p) := by
  rw [← List.takeWhile_append_dropWhile p l] at h
  exact h.right_of_append

theorem chain'_wsRel_reverse {l : Str} (h : List.Chain' wsRel l) :
    List.Chain' wsRel l.reverse := by
  rw [List.chain'_reverse]
  exact h.imp (fun a b hab hcon => hab ⟨hcon.2, hcon.1⟩)

theorem pyStrip_chain {l : Str} (h : List.Chain' wsRel l) :
    List.Chain' wsRel (pyStrip l) := by
  unfold pyStrip
  exact chain'_wsRel_reverse (chain'_dropWhile (chain'_wsRel_reverse (chain'_dropWhile h)))

theorem pyStrip_mem {l : Str} {c : Char} (h : c ∈ pyStrip l) : c ∈ l := by
  unfold pyStrip at h
  rw [List.mem_reverse] at h
  have h2 := (List.dropWhile_sublist isPySpace).subset h
  rw [List.mem_reverse] at h2
  exact (List.dropWhile_sublist isPySpace).subset h2

theorem pyStrip_last {l : Str} {c : Char} (h : (pyStrip l).getLast? = some c) :
    isPySpace c = false := by
  unfold pyStrip at h
  rw [List.getLast?_reverse] at h
  exact dropWhile_head_not h

theorem pyStrip_head {l : Str} {c : Char} (h : (pyStrip l).head? = some c) :
    isPySpace c = false := by
  unfold pyStrip at h
  rw [List.head?_reverse] at h
  set A := l.dropWhile isPySpace with hA
  have hne : A.reverse.dropWhile isPySpace ≠ [] := by
    intro hcon
    rw [hcon] at h
    simp at h
  have hsplit := List.takeWhile_append_dropWhile isPySpace A.reverse
  have : A.reverse.getLast? = some c := by
    rw [← hsplit, List.getLast?_append, h]
    rfl
  rw [List.getLast?_reverse] at this
  exact dropWhile_head_not this

theorem dropWhile_eq_self {p : Char → Bool} {l : Str}
    (h : ∀ c, l.head? = some c → p c = false) : l.dropWhile p = l := by
  cases l with
  | nil => rfl
  | cons d ds =>
    rw [List.dropWhile_cons, if_neg (by simp [h d rfl])]

theorem pyStrip_fixed {l : Str}
    (hh : ∀ c, l.head? = some c → isPySpace c = false)
    (hl : ∀ c, l.getLast? = some c → isPySpace c = false) : pyStrip l = l := by
  unfold pyStrip
  rw [dropWhile_eq_self hh]
  rw [dropWhile_eq_self (fun c hc => hl c (by rwa [List.head?_reverse] at hc))]
  exact List.reverse_reverse l

/-- The canonical form established by `_normalize_title`: word characters
or single separating spaces, no boundary whitespace, all cased characters
lowercase. -/
def canonStr (l : Str) : Prop :=
  (∀ c ∈ l, isWordCh c = true ∨ c = ' ') ∧
  List.Chain' wsRel l ∧
  (∀ c, l.head? = some c → isPySpace c = false) ∧
  (∀ c, l.getLast? = some c → isPySpace c = false) ∧
  (∀ c ∈ l, pyLowerChar c = c)

theorem normalize_title_canon (t : Str) : canonStr (normalize_title t) := by
  unfold normalize_title
  set u := t.filter (fun c => isWordCh c || isPySpace c) with hu
  set v := collapseWs u with hv
  set w := pyStrip v with hw
  have hvchars : ∀ c ∈ v, c = ' ' ∨ (isWordCh c = true ∧ isPySpace c = false) := by
    intro c hc
    rcases collapse_mem hc with h | ⟨h1, h2⟩
    · exact Or.inl h
    · have hmem := List.mem_filter.mp h1
      refine Or.inr ⟨?_, h2⟩
      rcases Bool.or_eq_true_iff.mp hmem.2 with h3 | h3
      · exact h3
      · rw [h3] at h2; exact absurd h2 (by simp)
  have hwchars : ∀ c ∈ w, c = ' ' ∨ (isWordCh c = true ∧ isPySpace c = false) :=
    fun c hc => hvchars c (pyStrip_mem hc)
  have hwchain : List.Chain' wsRel w := pyStrip_chain (collapse_chain u false)
  refine ⟨?_, ?_, ?_, ?_, ?_⟩
  · intro c hc
    rcases List.mem_map.mp hc with ⟨d, hd, rfl⟩
    rcases hwchars d hd with h | ⟨h1, _⟩
    · subst h
      right
      decide
    · exact Or.inl (isWordCh_pyLowerChar h1)
  · unfold pyLower
    rw [List.chain'_map]
    exact hwchain.imp (fun a b hab hcon =>
      hab ⟨(pyLowerChar_space_iff a).mp hcon.1, (pyLowerChar_space_iff b).mp hcon.2⟩)
  · intro c hc
    unfold pyLower at hc
    rw [List.head?_map] at hc
    cases hwh : w.head? with
    | none => rw [hwh] at hc; simp at hc
    | some d =>
      rw [hwh] at hc
      simp only [Option.map_some', Option.some.injEq] at hc
      rw [← hc, isPySpace_pyLowerChar]
      exact pyStrip_head hwh
  · intro c hc
    unfold pyLower at hc
    rw [List.getLast?_map] at hc
    cases hwh : w.getLast? with
    | none => rw [hwh] at hc; simp at hc
    | some d =>
      rw [hwh] at hc
      simp only [Option.map_some', Option.some.injEq] at hc
      rw [← hc, isPySpace_pyLowerChar]
      exact pyStrip_last hwh
  · intro c hc
    rcases List.mem_map.mp hc with ⟨d, _, rfl⟩
    exact pyLowerChar_idem d

theorem normalize_title_fixed {l : Str} (h : canonStr l) : normalize_title l = l := by
  obtain ⟨hchars, hchain, hhead, hlast, hlower⟩ := h
  unfold normalize_title
  have h1 : l.filter (fun c => isWordCh c || isPySpace c) = l := by
    rw [List.filter_eq_self]
    intro c hc
    rcases hchars c hc with h | h
    · simp [h]
    · subst h
      decide
  rw [h1]
  have h2 : collapseWs l = l := by
    unfold collapseWs
    refine (collapse_fixed ?_ hchain).1
    intro c hc
    rcases hchars c hc with h | h
    · cases hsp : isPySpace c with
      | false => exact Or.inr rfl
      | true => rw [isWordCh_not_space hsp] at h; exact absurd h (by simp)
    · exact Or.inl h
  rw [h2]
  rw [pyStrip_fixed hhead hlast]
  unfold pyLower
  exact (List.map_congr_left (fun a ha => hlower a ha)).trans (List.map_id l)

/-! ### Claim C10

The table model above is length-preserving, but CPython's `str.lower()`
is not: Unicode has exactly one unconditional length-changing lowercase
special casing (SpecialCasing.txt), `'İ'` (U+0130) → `"i"` + U+0307
(combining dot above).  Since `_normalize_title` lowercases *after* its
`[^\w\s가-힣]` filter, the combining dot produced by the first
application is deleted by the second one, so the function is not
idempotent.  The extended model below adds that special casing (and the
`\w` facts `'İ'` is a word character, U+0307 is not, both checked against
CPython); on the caseless-safe repertoire — ASCII and Hangul syllables —
it coincides with the table model. -/

/-- The combining dot above U+0307, the second character of
`"İ".lower()`; a nonspacing mark, so not `\w` (it is not alphanumeric). -/
def combiningDot : Char := '̇'

/-- Python `str.lower()` on one character including Unicode's single
unconditional length-changing lowercase special casing: `'İ'` lowers to
`"i"` + U+0307.  Every other character of the repertoire this development
touches (ASCII, Hangul syllables, the combining dot itself) goes through
the simple case table. -/
def pyLowerCharW (c : Char) : Str :=
  if c = 'İ' then ['i', combiningDot] else [pyLowerChar c]

/-- Python `str.lower()` with the special casing (character-wise
concatenation, so the result can be longer than the input). -/
def pyLowerW (l : Str) : Str := l.flatMap pyLowerCharW

/-- The regex class `\w` on the extended repertoire: `'İ'` is a cased
letter, hence a word character; the combining dot is not (in CPython
`re.match` of `\w` against U+0307 fails). -/
def isWordChW (c : Char) : Bool := isWordCh c || c = 'İ'

/-- `_normalize_title` over the extended character model — the same three
source steps: drop characters outside `\w`/`\s`/`가-힣`, collapse
whitespace runs and strip, lowercase last. -/
def normalize_title_w (title : Str) : Str :=
  pyLowerW (pyStrip (collapseWs (title.filter (fun c => isWordChW c || isPySpace c))))

/-- The caseless-safe repertoire on which lowering is length-preserving
and every class of the model is exact: ASCII and the Hangul syllables. -/
def charSafe (c : Char) : Bool := c.toNat < 128 || isHangulSyl c

theorem charSafe_ne_dotI {c : Char} (h : charSafe c = true) : c ≠ 'İ' := by
  intro he
  subst he
  exact absurd h (by decide)

theorem isWordChW_eq {c : Char} (h : c ≠ 'İ') : isWordChW c = isWordCh c := by
  unfold isWordChW
  rw [decide_eq_false h, Bool.or_false]

theorem pyLowerCharW_eq {c : Char} (h : c ≠ 'İ') :
    pyLowerCharW c = [pyLowerChar c] := by
  unfold pyLowerCharW
  rw [if_neg h]

theorem pyLowerW_eq {s : Str} (h : ∀ c ∈ s, c ≠ 'İ') : pyLowerW s = pyLower s := by
  induction s with
  | nil => rfl
  | cons c cs ih =>
    have ih' := ih (fun d hd => h d (List.mem_cons_of_mem _ hd))
    unfold pyLowerW pyLower at ih' ⊢
    rw [List.flatMap_cons, List.map_cons,
      pyLowerCharW_eq (h c (List.mem_cons_self _ _)), List.singleton_append, ih']

theorem charSafe_pyLowerChar {c : Char} (h : charSafe c = true) :
    charSafe (pyLowerChar c) = true := by
  cases hf : asciiCasePairs.find? (fun p => p.1 = c) with
  | none =>
    rw [pyLowerChar_of_find?_none hf]
    exact h
  | some p =>
    rw [pyLowerChar_of_find?_some hf]
    have hp := List.mem_of_find?_eq_some hf
    have hall : ∀ q ∈ asciiCasePairs, charSafe q.2 = true := by decide
    exact hall p hp

/-- On a title of caseless-safe characters the extended model and the
table model compute the same normalization. -/
theorem normalize_title_w_eq {t : Str} (h : ∀ c ∈ t, charSafe c = true) :
    normalize_title_w t = normalize_title t := by
  unfold normalize_title_w normalize_title
  have hfil : t.filter (fun c => isWordChW c || isPySpace c)
      = t.filter (fun c => isWordCh c || isPySpace c) := by
    apply List.filter_congr
    intro c hc
    rw [isWordChW_eq (charSafe_ne_dotI (h c hc))]
  rw [hfil]
  apply pyLowerW_eq
  intro c hc
  have h1 := pyStrip_mem hc
  unfold collapseWs at h1
  rcases collapse_mem h1 with h2 | ⟨h2, _⟩
  · subst h2
    decide
  · rw [List.mem_filter] at h2
    exact charSafe_ne_dotI (h c h2.1)

/-- Normalization does not leave the caseless-safe repertoire. -/
theorem normalize_title_safe {t : Str} (h : ∀ c ∈ t, charSafe c = true) :
    ∀ c ∈ normalize_title t, charSafe c = true := by
  intro c hc
  unfold normalize_title pyLower at hc
  rw [List.mem_map] at hc
  obtain ⟨d, hd, hdc⟩ := hc
  subst hdc
  apply charSafe_pyLowerChar
  have h1 := pyStrip_mem hd
  unfold collapseWs at h1
  rcases collapse_mem h1 with h2 | ⟨h2, _⟩
  · subst h2
    decide
  · rw [List.mem_filter] at h2
    exact h d h2.1

/-- C10 counterexample: `_normalize_title` is not idempotent.  On `"İ"`
the first pass keeps the letter (it is `\w`) and lowercases it to `"i"`
followed by the combining dot; the second pass deletes the combining dot
(not `\w`, not whitespace, not Hangul), so the two normalizations
differ. -/
theorem C10_counterexample :
    normalize_title_w (normalize_title_w (("İ").data)) ≠
      normalize_title_w (("İ").data) := by
  decide

/-- C10 (amended): on titles of caseless-safe characters (ASCII and
Hangul syllables, the repertoire on which `str.lower()` is
length-preserving) normalization is idempotent, and the extended model
agrees with the table model there; universal idempotence fails on the
length-changing lowering of `'İ'` (see the counterexample). -/
theorem C10_normalize_title_idem (t : Str) (h : ∀ c ∈ t, charSafe c = true) :
    normalize_title_w (normalize_title_w t) = normalize_title_w t ∧
    normalize_title_w t = normalize_title t := by
  have h1 : normalize_title_w t = normalize_title t := normalize_title_w_eq h
  have h2 : normalize_title_w (normalize_title t)
      = normalize_title (normalize_title t) :=
    normalize_title_w_eq (normalize_title_safe h)
  refine ⟨?_, h1⟩
  rw [h1, h2, normalize_title_fixed (normalize_title_canon t)]

theorem C10_witness :
    normalize_title_w (normalize_title_w (("Python News 소식").data)) =
        normalize_title_w (("Python News 소식").data) ∧
    normalize_title_w (("Python News 소식").data) =
      normalize_title (("Python News 소식").data) :=
  C10_normalize_title_idem (("Python News 소식").data) (by decide)

/-! ### Claim C8 -/

/-- C8: Jaccard algebra of `_calculate_similarity` — reflexivity gives
`1.0` (including the empty/empty case), the score is symmetric, and it
always lies in `[0, 1]`. -/
theorem C8_jaccard_algebra (a b : Str) :
    calculate_similarity a a = 1 ∧
    calculate_similarity [] [] = 1 ∧
    calculate_similarity a b = calculate_similarity b a ∧
    0 ≤ calculate_similarity a b ∧ calculate_similarity a b ≤ 1 :=
  ⟨calc_sim_self a, calc_sim_self [], calc_sim_comm a b,
    calc_sim_nonneg a b, calc_sim_le_one a b⟩

/-! ### Claim C6 -/

/-- C6 counterexample: contrary to the claim,
`_is_ad_or_promotional("[AD] 50% off sale", "")` returns `False` — the
fixed vocabulary contains the localized bracketed tags `[광고]`/`[pr]` but
not the English `[AD]`. -/
theorem C6_counterexample :
    is_ad_or_promotional (("[AD] 50% off sale").data) [] = false := by decide

/-- C6 amended: the classifier case-folds title+description and flags
presence of any term of the fixed promotional vocabulary, whose bracketed
ad tags are the localized `[광고]`/`[pr]` forms (so `"[광고] 50% off sale"`
and the case-folded `"[PR] 50% off sale"` are flagged, while
`"[AD] 50% off sale"` is not), and
`is_promotional("How to learn Python", "A guide to learning")` is
`false`. -/
theorem C6_ad_filter_scenarios :
    is_ad_or_promotional (("[광고] 50% off sale").data) [] = true ∧
    is_ad_or_promotional (("[PR] 50% off sale").data) [] = true ∧
    is_ad_or_promotional (("How to learn Python").data) (("A guide to learning").data)
      = false := by
  refine ⟨by decide, by decide, by decide⟩

/-! ### Claim C7 -/

/-- C7 counterexample: the format list has no `YYYYMMDD` compact form —
`_parse_pub_date("20240115")` returns `None`, not a 2024-01-15
timestamp. -/
theorem C7_counterexample : parse_pub_date (("20240115").data) = none := by decide

/-- C7 amended: the parser tries the ordered formats RSS-with-zone-name,
RFC 2822, ISO 8601 with offset, `YYYY-MM-DD HH:MM:SS`, `YYYY-MM-DD`
(first success wins), then the Korean `Y년 M월 D일` pattern; the compact
`YYYYMMDD` form is not among them, so `parse("20240115")` yields `None`
(by totality the function never throws), while the dashed and RSS forms
parse as expected. -/
theorem C7_date_parser_formats :
    parse_pub_date (("2024-01-15").data) = some ⟨2024, 1, 15, 0, 0, 0, none⟩ ∧
    parse_pub_date (("Mon, 15 Jan 2024 10:30:00 GMT").data)
      = some ⟨2024, 1, 15, 10, 30, 0, none⟩ ∧
    parse_pub_date (("2024년 1월 15일").data) = some ⟨2024, 1, 15, 0, 0, 0, none⟩ ∧
    parse_pub_date (("20240115").data) = none ∧
    parse_pub_date [] = none := by
  refine ⟨by decide, by decide, by decide, by decide, by decide⟩

/-! ### Claim C2: summary bounds -/

theorem stripTailMatch_length_le (f : Str → Bool) (s : Str) :
    (stripTailMatch f s).length ≤ s.length := by
  induction s with
  | nil =>
    unfold stripTailMatch
    split
    · simp
    · simp
  | cons c cs ih =>
    unfold stripTailMatch
    split
    · simp
    · simpa using Nat.succ_le_succ ih

theorem pyStrip_length_le (l : Str) : (pyStrip l).length ≤ l.length := by
  unfold pyStrip
  have h1 : (l.dropWhile isPySpace).length ≤ l.length :=
    (List.dropWhile_sublist _).length_le
  have h2 : ((l.dropWhile isPySpace).reverse.dropWhile isPySpace).length
      ≤ (l.dropWhile isPySpace).reverse.length :=
    (List.dropWhile_sublist _).length_le
  rw [List.length_reverse] at h2
  rw [List.length_reverse]
  omega

theorem dots_length : ((("...").data) : Str).length = 3 := rfl

theorem take147_append_dots_facts (x : Str) :
    (x.take 147 ++ ("...").data : Str) ≠ [] ∧
    ((x.take 147 ++ ("...").data : Str)).length ≤ 150 := by
  constructor
  · simp
  · rw [List.length_append, List.length_take, dots_length]
    have : min 147 x.length ≤ 147 := Nat.min_le_left _ _
    omega

theorem descTruncate_facts (d : Str) :
    descTruncate d ≠ [] ∧ (descTruncate d).length ≤ 150 := by
  unfold descTruncate
  dsimp only
  split
  · split
    · exact take147_append_dots_facts _
    · rename_i hlen
      refine ⟨by simp, ?_⟩
      simp only [not_lt] at hlen
      exact hlen
  · exact take147_append_dots_facts _

/-- The final block of `_clean_description` shared by both modules:
truncate when over 150 and fall back to the placeholder `K` on an
all-whitespace result. -/
theorem cleanFinal_facts (d8 K : Str) (hK1 : K ≠ []) (hK2 : K.length ≤ 150) :
    (if pyStrip (if 150 < d8.length then descTruncate d8 else d8) ≠ []
      then (if 150 < d8.length then descTruncate d8 else d8) else K) ≠ [] ∧
    ((if pyStrip (if 150 < d8.length then descTruncate d8 else d8) ≠ []
      then (if 150 < d8.length then descTruncate d8 else d8) else K)).length ≤ 150 := by
  split
  · split
    · rename_i hne
      refine ⟨?_, (descTruncate_facts _).2⟩
      intro hcon
      exact hne (by rw [hcon]; rfl)
    · exact ⟨hK1, hK2⟩
  · rename_i hlen
    split
    · rename_i hne
      simp only [not_lt] at hlen
      refine ⟨?_, hlen⟩
      intro hcon
      exact hne (by rw [hcon]; rfl)
    · exact ⟨hK1, hK2⟩

theorem news_clean_description_facts (d : Str) :
    news_clean_description d ≠ [] ∧ (news_clean_description d).length ≤ 150 := by
  unfold news_clean_description
  dsimp only
  split
  · refine ⟨by decide, by decide⟩
  · split
    · refine ⟨by decide, by decide⟩
    · exact cleanFinal_facts _ _ (by decide) (by decide)

theorem blog_clean_description_facts (d : Str) :
    blog_clean_description d ≠ [] ∧ (blog_clean_description d).length ≤ 150 := by
  unfold blog_clean_description
  dsimp only
  split
  · refine ⟨by decide, by decide⟩
  · split
    · refine ⟨by decide, by decide⟩
    · exact cleanFinal_facts _ _ (by decide) (by decide)

theorem summaryClip_facts (s : Str) :
    summaryClip s ≠ [] ∧ (summaryClip s).length ≤ 151 := by
  unfold summaryClip
  split
  · have := take147_append_dots_facts s
    exact ⟨this.1, by omega⟩
  · split
    · rename_i hlen _
      simp only [not_lt] at hlen
      refine ⟨by simp, ?_⟩
      rw [List.length_append, List.length_cons, List.length_nil]
      omega
    · rename_i hlen hdot
      simp only [not_lt] at hlen
      rw [Bool.not_eq_false] at hdot
      constructor
      · intro hcon
        rw [hcon] at hdot
        exact absurd hdot (by decide)
      · omega

theorem contentTier_facts {f : Str → Bool} {t c s : Str}
    (h : contentTier f t c = some s) : s ≠ [] ∧ s.length ≤ 151 := by
  unfold contentTier at h
  dsimp only at h
  split at h
  · exact absurd h (by simp)
  · rw [Option.some.injEq] at h
    subst h
    exact summaryClip_facts _

theorem tier1_facts {cond : Prop} [Decidable cond] {f : Str → Bool} {t c s : Str}
    (h : (if cond then contentTier f t c else none) = some s) :
    s ≠ [] ∧ s.length ≤ 151 := by
  split at h
  · exact contentTier_facts h
  · exact absurd h (by simp)

theorem news_generate_summary_facts (title content description : Str) :
    news_generate_summary title content description ≠ [] ∧
    (news_generate_summary title content description).length
      ≤ max 151 (title.length + 30) := by
  unfold news_generate_summary
  dsimp only
  split
  · rename_i s hs
    have hf := tier1_facts hs
    exact ⟨hf.1, le_trans hf.2 (Nat.le_max_left _ _)⟩
  · split
    · rename_i s hs
      have hfacts : s ≠ [] ∧ s.length ≤ 150 := by
        split at hs
        · split at hs
          · rw [Option.some.injEq] at hs
            subst hs
            exact news_clean_description_facts description
          · exact absurd hs (by simp)
        · exact absurd hs (by simp)
      refine ⟨hfacts.1, le_trans ?_ (Nat.le_max_left 151 _)⟩
      omega
    · split
      · constructor
        · simp
        · have h1 := pyStrip_length_le (stripTailMatch newsTitleTail title)
          have h2 := stripTailMatch_length_le newsTitleTail title
          refine le_trans ?_ (Nat.le_max_right 151 _)
          simp only [List.length_append, List.length_cons, List.length_nil]
          omega
      · split
        · constructor
          · simp
          · have h1 := pyStrip_length_le (stripTailMatch newsTitleTail title)
            have h2 := stripTailMatch_length_le newsTitleTail title
            refine le_trans ?_ (Nat.le_max_right 151 _)
            simp only [List.length_append, List.length_cons, List.length_nil]
            omega
        · refine ⟨by decide, le_trans (by decide) (Nat.le_max_left 151 _)⟩

theorem blog_generate_summary_facts (title content description : Str) :
    blog_generate_summary title content description ≠ [] ∧
    (blog_generate_summary title content description).length ≤ 151 := by
  unfold blog_generate_summary
  dsimp only
  split
  · rename_i s hs
    exact tier1_facts hs
  · split
    · rename_i s hs
      have hfacts : s ≠ [] ∧ s.length ≤ 150 := by
        split at hs
        · split at hs
          · rw [Option.some.injEq] at hs
            subst hs
            exact blog_clean_description_facts description
          · exact absurd hs (by simp)
        · exact absurd hs (by simp)
      exact ⟨hfacts.1, by omega⟩
    · refine ⟨by decide, by decide⟩

/-- C2 counterexample: the claim's 150-character bound fails — a long
title containing `개최` reaches the news title-derived fallback tier,
whose output is the (unclipped) stripped title plus a fixed sentence, far
over 150 characters. -/
theorem C2_counterexample :
    150 < (news_generate_summary (List.replicate 160 'a' ++ ("개최").data) [] []).length := by
  decide

/-- C2 amended: every summary is non-empty (a fixed placeholder when
nothing usable is found), and the 150-character bound holds as stated for
the description tier (`_clean_description` output is ≤ 150); a
content-tier summary may reach 151 (the clip to 150 can be followed by an
appended period), and the news title-derived fallback is bounded by the
title length plus a constant instead — so the summary length is at most
`max 151 (len(title) + 30)` for news and at most `151` for blogs. -/
theorem C2_summary_bounds (title content description : Str) :
    news_generate_summary title content description ≠ [] ∧
    blog_generate_summary title content description ≠ [] ∧
    (news_generate_summary title content description).length
      ≤ max 151 (title.length + 30) ∧
    (blog_generate_summary title content description).length ≤ 151 ∧
    (news_clean_description description).length ≤ 150 ∧
    (blog_clean_description description).length ≤ 150 :=
  ⟨(news_generate_summary_facts title content description).1,
    (blog_generate_summary_facts title content description).1,
    (news_generate_summary_facts title content description).2,
    (blog_generate_summary_facts title content description).2,
    (news_clean_description_facts description).2,
    (blog_clean_description_facts description).2⟩

/-! ### Order properties of the sort relation -/

theorem natListLt_asymm : ∀ {as bs : List Nat},
    natListLt as bs = true → natListLt bs as = false := by
  intro as
  induction as with
  | nil => intro bs h; cases bs <;> simp [natListLt] at h
  | cons a as ih =>
    intro bs h
    cases bs with
    | nil => simp [natListLt] at h
    | cons b bs =>
      unfold natListLt at h ⊢
      by_cases hab : a = b
      · subst hab
        rw [if_neg (show ¬a ≠ a from fun hcon => hcon rfl)] at h ⊢
        exact ih h
      · rw [if_pos hab] at h
        rw [if_pos (fun hcon : b = a => hab hcon.symm)]
        simp only [decide_eq_true_eq] at h
        simp only [decide_eq_false_iff_not]
        omega

theorem natListLt_conn : ∀ {as bs cs : List Nat}, as.length = bs.length →
    natListLt as cs = true → natListLt as bs = true ∨ natListLt bs cs = true := by
  intro as
  induction as with
  | nil => intro bs cs _ h; cases cs <;> simp [natListLt] at h
  | cons a as ih =>
    intro bs cs hlen h
    cases cs with
    | nil => simp [natListLt] at h
    | cons c cs =>
      cases bs with
      | nil => simp at hlen
      | cons b bs =>
        have hlen' : as.length = bs.length := by simpa using hlen
        unfold natListLt at h ⊢
        by_cases hac : a = c
        · subst hac
          rw [if_neg (fun hcon : ¬a = a => hcon rfl)] at h
          by_cases hab : a = b
          · subst hab
            rw [if_neg (fun hcon : ¬a = a => hcon rfl),
              if_neg (fun hcon : ¬a = a => hcon rfl)]
            exact ih hlen' h
          · by_cases h2 : a < b
            · left
              rw [if_pos hab]
              simpa using h2
            · right
              rw [if_pos (fun hcon : b = a => hab hcon.symm)]
              simp only [decide_eq_true_eq]
              omega
        · rw [if_pos hac] at h
          simp only [decide_eq_true_eq] at h
          by_cases hab : a = b
          · subst hab
            right
            rw [if_pos hac]
            simpa using h
          · by_cases h2 : a < b
            · left
              rw [if_pos hab]
              simpa using h2
            · right
              have hba : b < a := by omega
              rw [if_pos (show b ≠ c by omega)]
              simp only [decide_eq_true_eq]
              omega

theorem dtLeB_total (a b : PyDateTime) : dtLeB a b = true ∨ dtLeB b a = true := by
  unfold dtLeB
  by_cases h : dtLtB b a = true
  · right
    unfold dtLtB at *
    rw [natListLt_asymm h]
    rfl
  · left
    rw [Bool.not_eq_true] at h
    rw [h]
    rfl

theorem dtLeB_trans {a b c : PyDateTime} (h1 : dtLeB a b = true) (h2 : dtLeB b c = true) :
    dtLeB a c = true := by
  unfold dtLeB dtLtB at *
  rw [Bool.not_eq_true'] at h1 h2 ⊢
  by_contra hcon
  rw [Bool.not_eq_false] at hcon
  rcases @natListLt_conn (dtFields c) (dtFields b) (dtFields a) rfl hcon with h | h
  · rw [h2] at h
    exact Bool.false_ne_true h
  · rw [h1] at h
    exact Bool.false_ne_true h

instance : IsTotal ArticleRec recDescRel := by
  constructor
  intro a b
  unfold recDescRel recDescLe
  rcases dtLeB_total (recSortKey b) (recSortKey a) with h | h
  · exact Or.inl h
  · exact Or.inr h

instance : IsTrans ArticleRec recDescRel := by
  constructor
  intro a b c h1 h2
  unfold recDescRel recDescLe at *
  exact dtLeB_trans h2 h1

/-! ### Claim C3 -/

/-- A failed upstream fetch: the request raised, the HTTP status was not
200, or the payload status was not `"ok"`. -/
def fetchFailed (fetch : FetchResult) : Prop :=
  fetch = .err ∨
    ∃ code st items, fetch = .response code st items ∧ (code ≠ 200 ∨ st ≠ ("ok").data)

theorem fallback_news_shape (keyword : Str) (maxResults : Nat)
    (dongaStatus : Option Nat) (now : PyDateTime) :
    (fallback_news_search keyword maxResults dongaStatus now).length = 1 ∧
    ∀ r ∈ fallback_news_search keyword maxResults dongaStatus now,
      (r.title = keyword ++ (" 관련 뉴스 검색 결과를 가져올 수 없습니다").data ∨
        r.title = keyword ++ (" 뉴스 검색 실패").data) ∧
      r.link = [] ∧
      (r.source = ("시스템 알림").data ∨ r.source = ("시스템 오류").data) ∧
      r.pub_date = pyStrftimeYmdHm now := by
  unfold fallback_news_search
  split
  · refine ⟨rfl, ?_⟩
    intro r hr
    rw [List.mem_singleton] at hr
    subst hr
    exact ⟨Or.inl rfl, rfl, Or.inl rfl, rfl⟩
  · refine ⟨rfl, ?_⟩
    intro r hr
    rw [List.mem_singleton] at hr
    subst hr
    exact ⟨Or.inr rfl, rfl, Or.inr rfl, rfl⟩

theorem fallback_blog_shape (keyword : Str) (maxResults : Nat) (now : PyDateTime) :
    (fallback_blog_search keyword maxResults now).length = 1 ∧
    ∀ r ∈ fallback_blog_search keyword maxResults now,
      r.title = keyword ++ (" 블로그 검색 실패").data ∧ r.link = [] ∧
      r.source = ("시스템 오류").data ∧ r.pub_date = pyStrftimeYmdHm now := by
  refine ⟨rfl, ?_⟩
  intro r hr
  unfold fallback_blog_search at hr
  rw [List.mem_singleton] at hr
  subst hr
  exact ⟨rfl, rfl, rfl, rfl⟩

theorem search_news_failed_eq (keyword : Str) (maxResults : Nat)
    (cutoff now : PyDateTime) (fetchContent : Str → Except Unit Str)
    (dongaStatus : Option Nat) (fetch : FetchResult) (hfail : fetchFailed fetch) :
    search_news_by_keyword keyword maxResults cutoff now fetchContent dongaStatus fetch
      = fallback_news_search keyword maxResults dongaStatus now := by
  cases fetch with
  | err => rfl
  | response code st items =>
    rcases hfail with h | ⟨c', s', i', heq, hbad⟩
    · exact absurd h (by simp)
    · rw [FetchResult.response.injEq] at heq
      obtain ⟨h1, h2, h3⟩ := heq
      subst h1; subst h2; subst h3
      unfold search_news_by_keyword
      dsimp only
      by_cases hc : code = 200
      · subst hc
        rcases hbad with h | h
        · exact absurd rfl h
        · rw [if_neg (fun hcon => hcon rfl), if_pos h]
      · rw [if_pos hc]

theorem search_blogs_failed_eq (keyword : Str) (maxResults : Nat)
    (cutoff now : PyDateTime) (fetchContent : Str → Except Unit Str)
    (fetch : FetchResult) (hfail : fetchFailed fetch) :
    search_blogs_by_keyword keyword maxResults cutoff now fetchContent fetch
      = fallback_blog_search keyword maxResults now := by
  cases fetch with
  | err => rfl
  | response code st items =>
    rcases hfail with h | ⟨c', s', i', heq, hbad⟩
    · exact absurd h (by simp)
    · rw [FetchResult.response.injEq] at heq
      obtain ⟨h1, h2, h3⟩ := heq
      subst h1; subst h2; subst h3
      unfold search_blogs_by_keyword
      dsimp only
      by_cases hc : code = 200
      · subst hc
        rcases hbad with h | h
        · exact absurd rfl h
        · rw [if_neg (fun hcon => hcon rfl), if_pos h]
      · rw [if_pos hc]

/-- C3: degraded-service contract — when the upstream fetch fails (raises,
non-200 status, or non-ok payload status) the pipeline does not raise and
returns exactly the one synthetic failure record, whose title is the
keyword followed by a failure phrase, with a generic system source label,
the current timestamp as its date, and an empty link; both the news and
the blog pipeline behave this way. -/
theorem C3_degraded_service (keyword : Str) (maxResults : Nat)
    (cutoff now : PyDateTime) (fetchContent : Str → Except Unit Str)
    (dongaStatus : Option Nat) (fetch : FetchResult) (hfail : fetchFailed fetch) :
    (search_news_by_keyword keyword maxResults cutoff now fetchContent dongaStatus
        fetch).length = 1 ∧
    (search_blogs_by_keyword keyword maxResults cutoff now fetchContent fetch).length
      = 1 ∧
    (∀ r ∈ search_news_by_keyword keyword maxResults cutoff now fetchContent
        dongaStatus fetch,
      (r.title = keyword ++ (" 관련 뉴스 검색 결과를 가져올 수 없습니다").data ∨
        r.title = keyword ++ (" 뉴스 검색 실패").data) ∧
      r.link = [] ∧
      (r.source = ("시스템 알림").data ∨ r.source = ("시스템 오류").data) ∧
      r.pub_date = pyStrftimeYmdHm now) ∧
    (∀ r ∈ search_blogs_by_keyword keyword maxResults cutoff now fetchContent fetch,
      r.title = keyword ++ (" 블로그 검색 실패").data ∧ r.link = [] ∧
      r.source = ("시스템 오류").data ∧ r.pub_date = pyStrftimeYmdHm now) := by
  rw [search_news_failed_eq keyword maxResults cutoff now fetchContent dongaStatus
    fetch hfail]
  rw [search_blogs_failed_eq keyword maxResults cutoff now fetchContent fetch hfail]
  exact ⟨(fallback_news_shape keyword maxResults dongaStatus now).1,
    (fallback_blog_shape keyword maxResults now).1,
    (fallback_news_shape keyword maxResults dongaStatus now).2,
    (fallback_blog_shape keyword maxResults now).2⟩

/-- Shared concrete sample values for the witnesses. -/
def sampleCutoff : PyDateTime := ⟨2024, 1, 1, 0, 0, 0, none⟩

def sampleFetchContent : Str → Except Unit Str := fun _ => .ok []

/-- Witness for C3 at a concrete failing fetch. -/
theorem C3_witness :
    (search_news_by_keyword (("파이썬").data) 5 sampleCutoff sampleCutoff
        sampleFetchContent (some 500) FetchResult.err).length = 1 ∧
    (search_blogs_by_keyword (("파이썬").data) 5 sampleCutoff sampleCutoff
        sampleFetchContent FetchResult.err).length = 1 :=
  ⟨(C3_degraded_service (("파이썬").data) 5 sampleCutoff sampleCutoff
      sampleFetchContent (some 500) FetchResult.err (Or.inl rfl)).1,
    (C3_degraded_service (("파이썬").data) 5 sampleCutoff sampleCutoff
      sampleFetchContent (some 500) FetchResult.err (Or.inl rfl)).2.1⟩

/-! ### Claim C4 -/

theorem pipeline_loop_dates_aux {maxResults : Nat} {cutoff : PyDateTime}
    (hc : cutoff.tzoff = none) {sourceOf summaryOf : RawItem → Str} :
    ∀ (items : List RawItem) (acc : List ArticleRec) (seen : List Str)
      (recs : List ArticleRec),
      pipeline_loop maxResults cutoff sourceOf summaryOf items acc seen = .ok recs →
      (∀ r ∈ acc, ∀ d, r.pub_date_raw = some d → dtLeB cutoff d = true) →
      (∀ r ∈ recs, ∀ d, r.pub_date_raw = some d → dtLeB cutoff d = true) := by
  intro items
  induction items with
  | nil =>
    intro acc seen recs h hacc
    unfold pipeline_loop at h
    rw [Except.ok.injEq] at h
    subst h
    exact hacc
  | cons a rest ih =>
    intro acc seen recs h hacc
    unfold pipeline_loop at h
    by_cases h1 : (a.title = [] || is_similar_title a.title seen) = true
    · rw [if_pos h1] at h
      exact ih _ _ _ h hacc
    · rw [if_neg h1] at h
      by_cases h2 : is_ad_or_promotional a.title a.description = true
      · rw [if_pos h2] at h
        exact ih _ _ _ h hacc
      · rw [if_neg h2] at h
        dsimp only at h
        cases hskip : time_filter_skip (parse_pub_date a.pubDate) cutoff with
        | error e =>
          rw [hskip] at h
          exact absurd h (by simp)
        | ok b =>
          rw [hskip] at h
          cases b with
          | true =>
            dsimp only at h
            exact ih _ _ _ h hacc
          | false =>
            dsimp only at h
            have hnew : ∀ d, parse_pub_date a.pubDate = some d →
                dtLeB cutoff d = true := by
              intro d hd
              rw [hd] at hskip
              unfold time_filter_skip pyDtLt at hskip
              cases htz : d.tzoff with
              | some o =>
                simp only [htz, hc] at hskip
                exact absurd hskip (by simp)
              | none =>
                simp only [htz, hc, Except.ok.injEq] at hskip
                unfold dtLeB
                rw [hskip]
                rfl
            have haccX : ∀ (x : ArticleRec),
                x.pub_date_raw = parse_pub_date a.pubDate →
                ∀ r ∈ acc ++ [x], ∀ d, r.pub_date_raw = some d →
                  dtLeB cutoff d = true := by
              intro x hx r hr d hd
              rcases List.mem_append.mp hr with hm | hm
              · exact hacc r hm d hd
              · rw [List.mem_singleton] at hm
                subst hm
                rw [hx] at hd
                exact hnew d hd
            split at h
            · rw [Except.ok.injEq] at h
              subst h
              exact haccX _ rfl
            · exact ih _ _ _ h (haccX _ rfl)

/-- C4: time filtering — in any completed run (the loop did not raise), a
record of the sorted, truncated output whose date parsed satisfies
`published_at ≥ cutoff` (where `cutoff` models `now - hours_back` and is
naive, as `datetime.now()` is); an item whose date string fails to parse
is not excluded by the time filter (`time_filter_skip none = ok false`);
and for a parsed naive date the filter skips exactly when the date is
older than the cutoff.  Stated over the shared loop, this covers both the
news and the blog pipeline. -/
theorem C4_time_filter (maxResults : Nat) (cutoff : PyDateTime)
    (hc : cutoff.tzoff = none) (sourceOf summaryOf : RawItem → Str)
    (items : List RawItem) (recs : List ArticleRec)
    (h : pipeline_loop maxResults cutoff sourceOf summaryOf items [] [] = .ok recs) :
    (∀ r ∈ (List.insertionSort recDescRel recs).take maxResults,
      ∀ d, r.pub_date_raw = some d → dtLeB cutoff d = true) ∧
    time_filter_skip none cutoff = .ok false ∧
    (∀ d : PyDateTime, d.tzoff = none →
      time_filter_skip (some d) cutoff = .ok (dtLtB d cutoff)) := by
  refine ⟨?_, rfl, ?_⟩
  · intro r hr d hd
    have h1 : r ∈ List.insertionSort recDescRel recs :=
      (List.take_sublist maxResults _).subset hr
    have hmem : r ∈ recs := (List.perm_insertionSort recDescRel recs).subset h1
    exact pipeline_loop_dates_aux hc items [] [] recs h
      (by intro r hr; simp at hr) r hmem d hd
  · intro d hd
    unfold time_filter_skip pyDtLt
    simp only [hd, hc]

def sampleItemC4 : RawItem :=
  ⟨(("테스트 제목").data), [], [], (("2024-06-01").data), .strv (("출처").data)⟩

def sampleRecC4 : ArticleRec :=
  ⟨(("테스트 제목").data), (("기사 본문에서 상세 내용을 확인하세요.").data), [], [],
    (("2024-06-01 00:00").data), some ⟨2024, 6, 1, 0, 0, 0, none⟩⟩

/-- Witness for C4 at a concrete run with one dated item. -/
theorem C4_witness : dtLeB sampleCutoff ⟨2024, 6, 1, 0, 0, 0, none⟩ = true := by
  refine (C4_time_filter 5 sampleCutoff rfl (fun _ => [])
      (fun a => news_generate_summary a.title [] a.description)
      [sampleItemC4] [sampleRecC4] (by rfl)).1 sampleRecC4 ?_
      ⟨2024, 6, 1, 0, 0, 0, none⟩ rfl
  decide

/-! ### Claim C1 -/

/-- Two accepted records are at most 50% similar (normalized-title
Jaccard). -/
def recSimOk (r1 r2 : ArticleRec) : Prop :=
  calculate_similarity (normalize_title r1.title) (normalize_title r2.title)
    ≤ mkRat 1 2

/-- The same bound on the public records. -/
def pubSimOk (r1 r2 : PubRec) : Prop :=
  calculate_similarity (normalize_title r1.title) (normalize_title r2.title)
    ≤ mkRat 1 2

theorem recSimOk_symm : Symmetric recSimOk := by
  intro a b h
  unfold recSimOk at *
  rw [calc_sim_comm]
  exact h

theorem pipeline_loop_pairwise_aux {maxResults : Nat} {cutoff : PyDateTime}
    {sourceOf summaryOf : RawItem → Str} :
    ∀ (items : List RawItem) (acc : List ArticleRec) (seen : List Str)
      (recs : List ArticleRec),
      pipeline_loop maxResults cutoff sourceOf summaryOf items acc seen = .ok recs →
      seen = acc.map (fun r => normalize_title r.title) →
      acc.Pairwise recSimOk →
      recs.Pairwise recSimOk := by
  intro items
  induction items with
  | nil =>
    intro acc seen recs h hseen hpair
    unfold pipeline_loop at h
    rw [Except.ok.injEq] at h
    subst h
    exact hpair
  | cons a rest ih =>
    intro acc seen recs h hseen hpair
    unfold pipeline_loop at h
    by_cases h1 : (a.title = [] || is_similar_title a.title seen) = true
    · rw [if_pos h1] at h
      exact ih _ _ _ h hseen hpair
    · rw [if_neg h1] at h
      by_cases h2 : is_ad_or_promotional a.title a.description = true
      · rw [if_pos h2] at h
        exact ih _ _ _ h hseen hpair
      · rw [if_neg h2] at h
        dsimp only at h
        have hsim : is_similar_title a.title seen = false := by
          rw [Bool.not_eq_true, Bool.or_eq_false_iff] at h1
          exact h1.2
        have hok : ∀ x ∈ acc, recSimOk x
            ⟨a.title, summaryOf a, sourceOf a, a.link,
              (match parse_pub_date a.pubDate with
                | some d => pyStrftimeYmdHm d
                | none => ("시간 정보 없음").data),
              parse_pub_date a.pubDate⟩ := by
          intro x hx
          unfold is_similar_title at hsim
          rw [List.any_eq_false] at hsim
          have hx' : normalize_title x.title ∈ seen := by
            rw [hseen]
            exact List.mem_map.mpr ⟨x, hx, rfl⟩
          have := hsim _ hx'
          rw [decide_eq_true_eq, not_lt] at this
          unfold recSimOk
          rw [calc_sim_comm]
          exact this
        have hpair2 : ∀ (x : ArticleRec), (∀ y ∈ acc, recSimOk y x) →
            (acc ++ [x]).Pairwise recSimOk := by
          intro x hx
          rw [List.pairwise_append]
          refine ⟨hpair, List.pairwise_singleton _ _, ?_⟩
          intro p hp q hq
          rw [List.mem_singleton] at hq
          subst hq
          exact hx p hp
        cases hskip : time_filter_skip (parse_pub_date a.pubDate) cutoff with
        | error e =>
          rw [hskip] at h
          exact absurd h (by simp)
        | ok b =>
          rw [hskip] at h
          cases b with
          | true =>
            dsimp only at h
            exact ih _ _ _ h hseen hpair
          | false =>
            dsimp only at h
            split at h
            · rw [Except.ok.injEq] at h
              subst h
              exact hpair2 _ hok
            · refine ih _ _ _ h ?_ (hpair2 _ hok)
              rw [hseen, List.map_append]
              rfl

theorem search_news_pairwise (keyword : Str) (maxResults : Nat)
    (cutoff now : PyDateTime) (fetchContent : Str → Except Unit Str)
    (dongaStatus : Option Nat) (fetch : FetchResult) :
    (search_news_by_keyword keyword maxResults cutoff now fetchContent dongaStatus
      fetch).Pairwise pubSimOk := by
  have hfb : (fallback_news_search keyword maxResults dongaStatus now).Pairwise
      pubSimOk := by
    unfold fallback_news_search
    split
    · exact List.pairwise_singleton _ _
    · exact List.pairwise_singleton _ _
  unfold search_news_by_keyword
  cases fetch with
  | err => exact hfb
  | response code st items =>
    dsimp only
    split
    · exact hfb
    · split
      · exact hfb
      · cases hloop : pipeline_loop maxResults cutoff newsItemSource
            (fun a => newsItemSummary fetchContent a.title a.description a.link)
            items [] [] with
        | error e => exact hfb
        | ok recs =>
          have hrec : recs.Pairwise recSimOk :=
            pipeline_loop_pairwise_aux items [] [] recs hloop rfl (List.Pairwise.nil)
          have hsorted : (List.insertionSort recDescRel recs).Pairwise recSimOk :=
            ((List.perm_insertionSort recDescRel recs).pairwise_iff
              (fun h => recSimOk_symm h)).mpr hrec
          have htake : ((List.insertionSort recDescRel recs).take
              maxResults).Pairwise recSimOk := hsorted.take
          rw [List.pairwise_map]
          exact htake.imp (fun h => h)

theorem search_blogs_pairwise (keyword : Str) (maxResults : Nat)
    (cutoff now : PyDateTime) (fetchContent : Str → Except Unit Str)
    (fetch : FetchResult) :
    (search_blogs_by_keyword keyword maxResults cutoff now fetchContent
      fetch).Pairwise pubSimOk := by
  have hfb : (fallback_blog_search keyword maxResults now).Pairwise pubSimOk :=
    List.pairwise_singleton _ _
  unfold search_blogs_by_keyword
  cases fetch with
  | err => exact hfb
  | response code st items =>
    dsimp only
    split
    · exact hfb
    · split
      · exact hfb
      · cases hloop : pipeline_loop maxResults cutoff blogItemSource
            (fun a => blogItemSummary fetchContent a.title a.description a.link)
            items [] [] with
        | error e => exact hfb
        | ok recs =>
          have hrec : recs.Pairwise recSimOk :=
            pipeline_loop_pairwise_aux items [] [] recs hloop rfl (List.Pairwise.nil)
          have hsorted : (List.insertionSort recDescRel recs).Pairwise recSimOk :=
            ((List.perm_insertionSort recDescRel recs).pairwise_iff
              (fun h => recSimOk_symm h)).mpr hrec
          have htake : ((List.insertionSort recDescRel recs).take
              maxResults).Pairwise recSimOk := hsorted.take
          rw [List.pairwise_map]
          exact htake.imp (fun h => h)

/-- C1: dedup invariant — in every result list of either pipeline no two
records have normalized-title Jaccard similarity above `0.5` (each
accepted title was checked against all previously accepted normalized
titles, and sorting/truncation preserve the bound); in particular, for two
feed-ordered items titled "Python basics tutorial" and "Python basics
tutorial guide" (token overlap 3/4 > 1/2) only the first-seen one is
kept. -/
theorem C1_dedup_invariant :
    (∀ (keyword : Str) (maxResults : Nat) (cutoff now : PyDateTime)
      (fetchContent : Str → Except Unit Str) (dongaStatus : Option Nat)
      (fetch : FetchResult),
      (search_news_by_keyword keyword maxResults cutoff now fetchContent dongaStatus
        fetch).Pairwise pubSimOk) ∧
    (∀ (keyword : Str) (maxResults : Nat) (cutoff now : PyDateTime)
      (fetchContent : Str → Except Unit Str) (fetch : FetchResult),
      (search_blogs_by_keyword keyword maxResults cutoff now fetchContent
        fetch).Pairwise pubSimOk) ∧
    (search_news_by_keyword (("파이썬").data) 5 sampleCutoff sampleCutoff
        sampleFetchContent (some 500)
        (.response 200 (("ok").data)
          [⟨(("Python basics tutorial").data), [], [], [], .strv (("TestSource").data)⟩,
            ⟨(("Python basics tutorial guide").data), [], [], [],
              .strv (("TestSource").data)⟩])).map PubRec.title
      = [(("Python basics tutorial").data)] := by
  refine ⟨search_news_pairwise, search_blogs_pairwise, ?_⟩
  decide

/-! ### Claim C5 -/

theorem natListLt_ge_min (y mo d h mi s : Nat) (h1 : 1 ≤ y) (h2 : 1 ≤ mo)
    (h3 : 1 ≤ d) :
    natListLt [y, mo, d, h, mi, s] [1, 1, 1, 0, 0, 0] = false := by
  simp only [natListLt]
  split_ifs <;> first
    | rfl
    | (rw [decide_eq_false_iff_not]; omega)

theorem mkPyDateTime_bounds {y mo d h mi s : Nat} {tz : Option Int}
    {dt : PyDateTime} (hmk : mkPyDateTime y mo d h mi s tz = some dt) :
    1 ≤ dt.year ∧ 1 ≤ dt.month ∧ 1 ≤ dt.day := by
  unfold mkPyDateTime at hmk
  split_ifs at hmk with hc
  · rw [Option.some.injEq] at hmk
    subst hmk
    simp only [Bool.and_eq_true, decide_eq_true_eq] at hc
    refine ⟨?_, ?_, ?_⟩ <;> tauto

theorem runFormat_bounds {alts : List ((Nat × Nat × Nat × Nat × Nat × Nat × Option Int) × Str)}
    {d : PyDateTime} (h : runFormat alts = some d) :
    1 ≤ d.year ∧ 1 ≤ d.month ∧ 1 ≤ d.day := by
  unfold runFormat at h
  split at h
  · exact mkPyDateTime_bounds h
  · exact absurd h (by simp)

theorem parse_pub_date_bounds {s : Str} {d : PyDateTime}
    (hp : parse_pub_date s = some d) : 1 ≤ d.year ∧ 1 ≤ d.month ∧ 1 ≤ d.day := by
  unfold parse_pub_date at hp
  split_ifs at hp with h0
  · dsimp only at hp
    cases h1 : tryFmtRssName (pyStrip s) with
    | some d1 =>
      rw [h1, Option.some.injEq] at hp
      subst hp
      unfold tryFmtRssName at h1
      exact runFormat_bounds h1
    | none =>
      rw [h1] at hp
      cases h2 : tryFmtRssOffset (pyStrip s) with
      | some d2 =>
        rw [h2, Option.some.injEq] at hp
        subst hp
        unfold tryFmtRssOffset at h2
        exact runFormat_bounds h2
      | none =>
        rw [h2] at hp
        cases h3 : tryFmtIso (pyStrip s) with
        | some d3 =>
          rw [h3, Option.some.injEq] at hp
          subst hp
          unfold tryFmtIso at h3
          exact runFormat_bounds h3
        | none =>
          rw [h3] at hp
          cases h4 : tryFmtYmdHms (pyStrip s) with
          | some d4 =>
            rw [h4, Option.some.injEq] at hp
            subst hp
            unfold tryFmtYmdHms at h4
            exact runFormat_bounds h4
          | none =>
            rw [h4] at hp
            cases h5 : tryFmtYmd (pyStrip s) with
            | some d5 =>
              rw [h5, Option.some.injEq] at hp
              subst hp
              unfold tryFmtYmd at h5
              exact runFormat_bounds h5
            | none =>
              rw [h5] at hp
              cases h6 : koreanScan s with
              | some v =>
                obtain ⟨y, mo, dd⟩ := v
                rw [h6] at hp
                exact mkPyDateTime_bounds hp
              | none =>
                rw [h6] at hp
                exact absurd hp (by simp)

theorem dtLeB_min_of_parse {s : Str} {d : PyDateTime}
    (hp : parse_pub_date s = some d) : dtLeB pyDatetimeMin d = true := by
  obtain ⟨h1, h2, h3⟩ := parse_pub_date_bounds hp
  unfold dtLeB dtLtB
  rw [Bool.not_eq_eq_eq_not, Bool.not_true]
  obtain ⟨y, mo, dd, hh, mi, ss, tz⟩ := d
  exact natListLt_ge_min y mo dd hh mi ss h1 h2 h3

theorem fallback_news_length (keyword : Str) (maxResults : Nat)
    (dongaStatus : Option Nat) (now : PyDateTime) :
    (fallback_news_search keyword maxResults dongaStatus now).length = 1 := by
  unfold fallback_news_search
  split <;> rfl

/-- The length bound fails at `max_results = 0`: the failing-fetch path
returns its one synthetic record regardless, so the result has length
`1 > 0`. -/
theorem C5_counterexample :
    ¬ ((search_news_by_keyword (("파이썬").data) 0 sampleCutoff sampleCutoff
        sampleFetchContent none FetchResult.err).length ≤ 0) := by
  decide

/-- C5 (amended): for `max_results ≥ 1` every result list of either
pipeline has length at most `max_results`; on the success path the
published list is the descending-sorted accepted records truncated to
`max_results`, pairwise newest-first under the sort key; a record with no
parsed date gets `datetime.min` as its key, and every parsed date is at
least `datetime.min`, so unknown dates sort as oldest.  (The spec's
unconditional size bound is refuted by `max_results = 0`, where the
fallback still returns one record.) -/
theorem C5_order_and_size (maxResults : Nat) (hmax : 1 ≤ maxResults) :
    (∀ (keyword : Str) (cutoff now : PyDateTime)
      (fetchContent : Str → Except Unit Str) (dongaStatus : Option Nat)
      (fetch : FetchResult),
      (search_news_by_keyword keyword maxResults cutoff now fetchContent dongaStatus
        fetch).length ≤ maxResults) ∧
    (∀ (keyword : Str) (cutoff now : PyDateTime)
      (fetchContent : Str → Except Unit Str) (fetch : FetchResult),
      (search_blogs_by_keyword keyword maxResults cutoff now fetchContent
        fetch).length ≤ maxResults) ∧
    (∀ recs : List ArticleRec,
      ((List.insertionSort recDescRel recs).take maxResults).Pairwise recDescRel) ∧
    (∀ r : ArticleRec, r.pub_date_raw = none → recSortKey r = pyDatetimeMin) ∧
    (∀ (s : Str) (d : PyDateTime), parse_pub_date s = some d →
      dtLeB pyDatetimeMin d = true) := by
  refine ⟨?_, ?_, ?_, ?_, ?_⟩
  · intro keyword cutoff now fetchContent dongaStatus fetch
    unfold search_news_by_keyword
    have hfb : (fallback_news_search keyword maxResults dongaStatus now).length
        ≤ maxResults := by
      rw [fallback_news_length]
      exact hmax
    cases fetch with
    | err => exact hfb
    | response code st items =>
      dsimp only
      split
      · exact hfb
      · split
        · exact hfb
        · split
          · exact hfb
          · rw [List.length_map, List.length_take]
            exact min_le_left _ _
  · intro keyword cutoff now fetchContent fetch
    unfold search_blogs_by_keyword
    have hfb : (fallback_blog_search keyword maxResults now).length ≤ maxResults := by
      unfold fallback_blog_search
      simpa using hmax
    cases fetch with
    | err => exact hfb
    | response code st items =>
      dsimp only
      split
      · exact hfb
      · split
        · exact hfb
        · split
          · exact hfb
          · rw [List.length_map, List.length_take]
            exact min_le_left _ _
  · intro recs
    have hs : (List.insertionSort recDescRel recs).Pairwise recDescRel :=
      List.sorted_insertionSort recDescRel recs
    exact hs.take
  · intro r hr
    unfold recSortKey
    rw [hr]
    rfl
  · intro s d hp
    exact dtLeB_min_of_parse hp

theorem C5_witness :
    (search_news_by_keyword (("파이썬").data) 1 sampleCutoff sampleCutoff
      sampleFetchContent none FetchResult.err).length ≤ 1 :=
  (C5_order_and_size 1 (by decide)).1 (("파이썬").data) sampleCutoff sampleCutoff
    sampleFetchContent none FetchResult.err

/-! ### Claim C9 -/

theorem pipeline_loop_titles_aux {maxResults : Nat} {cutoff : PyDateTime}
    {sourceOf summaryOf : RawItem → Str} :
    ∀ (items : List RawItem) (acc : List ArticleRec) (seen : List Str)
      (recs : List ArticleRec),
      pipeline_loop maxResults cutoff sourceOf summaryOf items acc seen = .ok recs →
      ∀ r ∈ recs, r ∈ acc ∨ ∃ a ∈ items, r.title = a.title := by
  intro items
  induction items with
  | nil =>
    intro acc seen recs h r hr
    unfold pipeline_loop at h
    rw [Except.ok.injEq] at h
    subst h
    exact Or.inl hr
  | cons a rest ih =>
    intro acc seen recs h r hr
    have hlift : (r ∈ acc ∨ ∃ b ∈ rest, r.title = b.title) →
        r ∈ acc ∨ ∃ b ∈ a :: rest, r.title = b.title := by
      rintro (hl | ⟨b, hb, ht⟩)
      · exact Or.inl hl
      · exact Or.inr ⟨b, List.mem_cons_of_mem _ hb, ht⟩
    unfold pipeline_loop at h
    by_cases h1 : (a.title = [] || is_similar_title a.title seen) = true
    · rw [if_pos h1] at h
      exact hlift (ih _ _ _ h r hr)
    · rw [if_neg h1] at h
      by_cases h2 : is_ad_or_promotional a.title a.description = true
      · rw [if_pos h2] at h
        exact hlift (ih _ _ _ h r hr)
      · rw [if_neg h2] at h
        dsimp only at h
        have hstep : ∀ x : ArticleRec, x.title = a.title →
            r ∈ acc ++ [x] → r ∈ acc ∨ ∃ b ∈ a :: rest, r.title = b.title := by
          intro x hx hmem
          rcases List.mem_append.mp hmem with hl | hr'
          · exact Or.inl hl
          · rw [List.mem_singleton] at hr'
            subst hr'
            exact Or.inr ⟨a, List.mem_cons_self _ _, hx⟩
        cases hskip : time_filter_skip (parse_pub_date a.pubDate) cutoff with
        | error e =>
          rw [hskip] at h
          exact absurd h (by simp)
        | ok b =>
          rw [hskip] at h
          cases b with
          | true =>
            dsimp only at h
            exact hlift (ih _ _ _ h r hr)
          | false =>
            dsimp only at h
            split at h
            · rw [Except.ok.injEq] at h
              subst h
              exact hstep _ rfl hr
            · rcases ih _ _ _ h r hr with hm | hrest
              · exact hstep _ rfl hm
              · exact hlift (Or.inr hrest)

/-- The pipeline does not strip markup from titles: a raw item titled with
literal `<b>` tags is returned with that title verbatim, and the title is
not a fixed point of the tag-removal substitution used for
descriptions. -/
theorem C9_counterexample :
    ((search_news_by_keyword (("파이썬").data) 5 sampleCutoff sampleCutoff
        sampleFetchContent none
        (.response 200 (("ok").data)
          [⟨(("<b>Python</b> news update").data),
            (("기사 본문에서 상세 내용을 확인하세요.").data), [], [],
            .strv (("TestSource").data)⟩])).map PubRec.title
      = [(("<b>Python</b> news update").data)]) ∧
    runSub tagMatch (("<b>Python</b> news update").data)
      ≠ (("<b>Python</b> news update").data) := by
  constructor
  · decide
  · decide

/-- C9 (amended): every record returned on the success path carries the
raw item's title verbatim — no markup stripping is applied to titles
anywhere in the loop — and every other returned record is the synthetic
fallback record. -/
theorem C9_title_provenance :
    (∀ (keyword : Str) (maxResults : Nat) (cutoff now : PyDateTime)
      (fetchContent : Str → Except Unit Str) (dongaStatus : Option Nat)
      (code : Nat) (st : Str) (items : List RawItem),
      ∀ r ∈ search_news_by_keyword keyword maxResults cutoff now fetchContent
          dongaStatus (.response code st items),
        (∃ a ∈ items, r.title = a.title) ∨
        r ∈ fallback_news_search keyword maxResults dongaStatus now) ∧
    (∀ (keyword : Str) (maxResults : Nat) (cutoff now : PyDateTime)
      (fetchContent : Str → Except Unit Str)
      (code : Nat) (st : Str) (items : List RawItem),
      ∀ r ∈ search_blogs_by_keyword keyword maxResults cutoff now fetchContent
          (.response code st items),
        (∃ a ∈ items, r.title = a.title) ∨
        r ∈ fallback_blog_search keyword maxResults now) := by
  constructor
  · intro keyword maxResults cutoff now fetchContent dongaStatus code st items r hr
    unfold search_news_by_keyword at hr
    dsimp only at hr
    split at hr
    · exact Or.inr hr
    · split at hr
      · exact Or.inr hr
      · revert hr
        cases hloop : pipeline_loop maxResults cutoff newsItemSource
            (fun a => newsItemSummary fetchContent a.title a.description a.link)
            items [] [] with
        | error e =>
          intro hr
          exact Or.inr hr
        | ok recs =>
          intro hr
          rw [List.mem_map] at hr
          obtain ⟨q, hq, hq2⟩ := hr
          have hq' : q ∈ recs :=
            (List.perm_insertionSort recDescRel recs).subset
              ((List.take_subset _ _) hq)
          rcases pipeline_loop_titles_aux items [] [] recs hloop q hq' with hm | ⟨a, ha, ht⟩
          · exact absurd hm (List.not_mem_nil q)
          · refine Or.inl ⟨a, ha, ?_⟩
            rw [← hq2]
            exact ht
  · intro keyword maxResults cutoff now fetchContent code st items r hr
    unfold search_blogs_by_keyword at hr
    dsimp only at hr
    split at hr
    · exact Or.inr hr
    · split at hr
      · exact Or.inr hr
      · revert hr
        cases hloop : pipeline_loop maxResults cutoff blogItemSource
            (fun a => blogItemSummary fetchContent a.title a.description a.link)
            items [] [] with
        | error e =>
          intro hr
          exact Or.inr hr
        | ok recs =>
          intro hr
          rw [List.mem_map] at hr
          obtain ⟨q, hq, hq2⟩ := hr
          have hq' : q ∈ recs :=
            (List.perm_insertionSort recDescRel recs).subset
              ((List.take_subset _ _) hq)
          rcases pipeline_loop_titles_aux items [] [] recs hloop q hq' with hm | ⟨a, ha, ht⟩
          · exact absurd hm (List.not_mem_nil q)
          · refine Or.inl ⟨a, ha, ?_⟩
            rw [← hq2]
            exact ht

def sampleItemC9 : RawItem :=
  ⟨(("<b>Python</b> news update").data), (("기사 본문에서 상세 내용을 확인하세요.").data),
    [], [], .strv (("TestSource").data)⟩

def sampleRecC9 : PubRec :=
  ⟨(("<b>Python</b> news update").data), (("기사 본문에서 상세 내용을 확인하세요.").data),
    (("TestSource").data), [], (("시간 정보 없음").data)⟩

theorem C9_witness :
    (∃ a ∈ [sampleItemC9], sampleRecC9.title = a.title) ∨
    sampleRecC9 ∈ fallback_news_search (("파이썬").data) 5 none sampleCutoff :=
  C9_title_provenance.1 (("파이썬").data) 5 sampleCutoff sampleCutoff
    sampleFetchContent none 200 (("ok").data) [sampleItemC9] sampleRecC9 (by decide)

end PG
